/-
Verification of the ssds submission manager against its specification.

The Python sources under ssds/ are shallowly embedded below: pure helper
functions become Lean functions on Nat / List Nat / String; stateful store
operations become explicit state passing over association-list stores;
Python exceptions become an Except monad over an explicit error type.
Machine integers in the checksummed algorithms (MD5, CRC32C) are Nat with
explicit masking to 32 or 64 bits.
-/
import Mathlib

/-! ## Byte and string primitives shared by the embedding -/

/-- Bytes are modelled as natural numbers below 256 inside lists. -/
abbrev Bytes := List Nat

/-- Hex digit character for a value below 16 (lowercase, as Python hexdigest). -/
def hexDigit (n : Nat) : Char :=
  if n < 10 then Char.ofNat (48 + n) else Char.ofNat (87 + n)

/-- Lowercase hex string of a byte list, two digits per byte (Python bytes.hex). -/
def bytesToHex (bs : Bytes) : String :=
  String.mk (bs.foldr (fun b acc => hexDigit (b / 16 % 16) :: hexDigit (b % 16) :: acc) [])

/-- Value of a hex digit character (supports the lowercase digits produced here). -/
def hexDigitVal (c : Char) : Nat :=
  if c.toNat ≥ 97 then c.toNat - 87 else c.toNat - 48

/-- Inverse of bytesToHex on well-formed even-length hex strings
(binascii.unhexlify as used by compute_composite_etag). -/
def hexToBytes (s : String) : Bytes :=
  go s.data
where
  go : List Char → Bytes
  | c1 :: c2 :: rest => (16 * hexDigitVal c1 + hexDigitVal c2) :: go rest
  | _ => []

/-- Character of the standard base64 alphabet at index n < 64. -/
def b64Char (n : Nat) : Char :=
  if n < 26 then Char.ofNat (65 + n)
  else if n < 52 then Char.ofNat (97 + (n - 26))
  else if n < 62 then Char.ofNat (48 + (n - 52))
  else if n = 62 then '+'
  else '/'

/-- Standard base64 encoding of a byte list with '=' padding
(Python base64.b64encode). -/
def base64Encode (bs : Bytes) : String :=
  String.mk (go bs)
where
  go : Bytes → List Char
  | b0 :: b1 :: b2 :: rest =>
      b64Char (b0 / 4) :: b64Char ((b0 % 4) * 16 + b1 / 16) ::
      b64Char ((b1 % 16) * 4 + b2 / 64) :: b64Char (b2 % 64) :: go rest
  | [b0, b1] =>
      [b64Char (b0 / 4), b64Char ((b0 % 4) * 16 + b1 / 16), b64Char ((b1 % 16) * 4), '=']
  | [b0] =>
      [b64Char (b0 / 4), b64Char ((b0 % 4) * 16), '=', '=']
  | [] => []

/-! ## CRC32C (Castagnoli), as wrapped by ssds.checksum.crc32c

google_crc32c.Checksum maintains the reflected CRC-32C register; `digest()`
returns the four big-endian bytes of the finalised register and
`google_storage_crc32c` base64-encodes them. -/

/-- One step of the reflected CRC-32C bit loop (polynomial 0x82F63B78). -/
def crc32cBitStep (c : Nat) : Nat :=
  if c % 2 = 1 then (c / 2) ^^^ 0x82F63B78 else c / 2

/-- Fold one byte into the CRC-32C register. -/
def crc32cUpdByte (c b : Nat) : Nat :=
  Nat.iterate crc32cBitStep 8 (c ^^^ (b % 256))

/-- Fold a byte list into the CRC-32C register. -/
def crc32cUpdBytes (c : Nat) (bs : Bytes) : Nat :=
  bs.foldl crc32cUpdByte c

/-- Initial CRC-32C register value. -/
def crc32cInit : Nat := 0xFFFFFFFF

/-- Finalisation xor of the CRC-32C register. -/
def crc32cFinal (c : Nat) : Nat := c ^^^ 0xFFFFFFFF

/-- The four big-endian digest bytes google_crc32c.Checksum.digest() returns. -/
def crc32cDigestBytes (c : Nat) : Bytes :=
  [crc32cFinal c / 2 ^ 24 % 256, crc32cFinal c / 2 ^ 16 % 256,
   crc32cFinal c / 2 ^ 8 % 256, crc32cFinal c % 256]

/-- ssds.checksum.crc32c: streaming accumulator state (the register). -/
structure Crc32cState where
  reg : Nat
deriving Repr, DecidableEq

namespace Crc32cState

/-- crc32c(data) constructor; crc32c() is mkCrc32c []. -/
def mkCrc32c (data : Bytes) : Crc32cState := ⟨crc32cUpdBytes crc32cInit data⟩

/-- crc32c.update. -/
def update (s : Crc32cState) (data : Bytes) : Crc32cState := ⟨crc32cUpdBytes s.reg data⟩

/-- crc32c.hexdigest: hex of the digest bytes. -/
def hexdigest (s : Crc32cState) : String := bytesToHex (crc32cDigestBytes s.reg)

/-- crc32c.google_storage_crc32c: base64 of the digest bytes. -/
def google_storage_crc32c (s : Crc32cState) : String := base64Encode (crc32cDigestBytes s.reg)

end Crc32cState

/-- The GCS-style base64 CRC32C of a whole byte string,
crc32c(data).google_storage_crc32c(). -/
def gcsCrc32cB64 (data : Bytes) : String :=
  (Crc32cState.mkCrc32c data).google_storage_crc32c

/-! ## MD5, as used through hashlib.md5 by ssds.checksum

Full RFC 1321 implementation over Nat with explicit 32-bit masking. -/

/-- Mask to 32 bits. -/
def mask32 (x : Nat) : Nat := x % 2 ^ 32

/-- 32-bit left rotation (x assumed below 2^32). -/
def rotl32 (x c : Nat) : Nat := mask32 (x * 2 ^ c) ||| x / 2 ^ (32 - c)

/-- k little-endian bytes of x. -/
def leBytes (k x : Nat) : Bytes :=
  match k with
  | 0 => []
  | k + 1 => x % 256 :: leBytes k (x / 256)

/-- The 64 MD5 sine constants floor(2^32 * abs(sin(i+1))). -/
def md5K : List Nat :=
  [0xD76AA478, 0xE8C7B756, 0x242070DB, 0xC1BDCEEE, 0xF57C0FAF, 0x4787C62A, 0xA8304613, 0xFD469501,
   0x698098D8, 0x8B44F7AF, 0xFFFF5BB1, 0x895CD7BE, 0x6B901122, 0xFD987193, 0xA679438E, 0x49B40821,
   0xF61E2562, 0xC040B340, 0x265E5A51, 0xE9B6C7AA, 0xD62F105D, 0x02441453, 0xD8A1E681, 0xE7D3FBC8,
   0x21E1CDE6, 0xC33707D6, 0xF4D50D87, 0x455A14ED, 0xA9E3E905, 0xFCEFA3F8, 0x676F02D9, 0x8D2A4C8A,
   0xFFFA3942, 0x8771F681, 0x6D9D6122, 0xFDE5380C, 0xA4BEEA44, 0x4BDECFA9, 0xF6BB4B60, 0xBEBFBC70,
   0x289B7EC6, 0xEAA127FA, 0xD4EF3085, 0x04881D05, 0xD9D4D039, 0xE6DB99E5, 0x1FA27CF8, 0xC4AC5665,
   0xF4292244, 0x432AFF97, 0xAB9423A7, 0xFC93A039, 0x655B59C3, 0x8F0CCC92, 0xFFEFF47D, 0x85845DD1,
   0x6FA87E4F, 0xFE2CE6E0, 0xA3014314, 0x4E0811A1, 0xF7537E82, 0xBD3AF235, 0x2AD7D2BB, 0xEB86D391]

/-- The 64 MD5 per-round rotation amounts. -/
def md5S : List Nat :=
  [7, 12, 17, 22, 7, 12, 17, 22, 7, 12, 17, 22, 7, 12, 17, 22,
   5, 9, 14, 20, 5, 9, 14, 20, 5, 9, 14, 20, 5, 9, 14, 20,
   4, 11, 16, 23, 4, 11, 16, 23, 4, 11, 16, 23, 4, 11, 16, 23,
   6, 10, 15, 21, 6, 10, 15, 21, 6, 10, 15, 21, 6, 10, 15, 21]

/-- MD5 padding: append 0x80, zeros to 56 mod 64, then the 64-bit LE bit length. -/
def md5Pad (msg : Bytes) : Bytes :=
  msg ++ 0x80 :: List.replicate ((119 - msg.length % 64) % 64) 0
      ++ leBytes 8 (msg.length * 8 % 2 ^ 64)

/-- Little-endian 32-bit word j of a 64-byte block. -/
def leWord (block : Bytes) (j : Nat) : Nat :=
  block.getD (4 * j) 0 + 2 ^ 8 * block.getD (4 * j + 1) 0
    + 2 ^ 16 * block.getD (4 * j + 2) 0 + 2 ^ 24 * block.getD (4 * j + 3) 0

/-- One of the 64 MD5 operations. -/
def md5Op (M : Nat → Nat) (st : Nat × Nat × Nat × Nat) (i : Nat) : Nat × Nat × Nat × Nat :=
  let a := st.1; let b := st.2.1; let c := st.2.2.1; let d := st.2.2.2
  let f :=
    if i < 16 then (b &&& c) ||| ((b ^^^ 0xFFFFFFFF) &&& d)
    else if i < 32 then (d &&& b) ||| ((d ^^^ 0xFFFFFFFF) &&& c)
    else if i < 48 then b ^^^ c ^^^ d
    else c ^^^ (b ||| (d ^^^ 0xFFFFFFFF))
  let g :=
    if i < 16 then i
    else if i < 32 then (5 * i + 1) % 16
    else if i < 48 then (3 * i + 5) % 16
    else 7 * i % 16
  (d, mask32 (b + rotl32 (mask32 (f + a + md5K.getD i 0 + M g)) (md5S.getD i 0)), b, c)

/-- Process one 64-byte block into the MD5 state. -/
def md5Block (st : Nat × Nat × Nat × Nat) (block : Bytes) : Nat × Nat × Nat × Nat :=
  let r := (List.range 64).foldl (md5Op (leWord block)) st
  (mask32 (st.1 + r.1), mask32 (st.2.1 + r.2.1), mask32 (st.2.2.1 + r.2.2.1),
   mask32 (st.2.2.2 + r.2.2.2))

/-- The 64-byte blocks of a padded message (whose length is a multiple of 64). -/
def md5Blocks (bs : Bytes) : List Bytes :=
  (List.range (bs.length / 64)).map fun i => (bs.drop (64 * i)).take 64

/-- MD5 digest bytes of a message. -/
def md5Digest (msg : Bytes) : Bytes :=
  let r := (md5Blocks (md5Pad msg)).foldl md5Block (0x67452301, 0xEFCDAB89, 0x98BADCFE, 0x10325476)
  leBytes 4 r.1 ++ leBytes 4 r.2.1 ++ leBytes 4 r.2.2.1 ++ leBytes 4 r.2.2.2

/-- checksum.md5(data).hexdigest(): lowercase hex MD5 of the data. -/
def md5Hex (msg : Bytes) : String := bytesToHex (md5Digest msg)

/-! ## ssds.checksum: composite ETag and the unordered checksum accumulators -/

/-- checksum.compute_composite_etag: unhexlify each per-part ETag, concatenate,
MD5 the result and append "-N". -/
def compute_composite_etag (etags : List String) : String :=
  md5Hex ((etags.map hexToBytes).flatten) ++ "-" ++ toString etags.length

/-- The order Python `sorted` uses on (part number, payload) tuples:
lexicographic on the pair. -/
def numLex {α : Type} [LinearOrder α] (a b : Nat × α) : Prop :=
  a.1 < b.1 ∨ (a.1 = b.1 ∧ a.2 ≤ b.2)

instance {α : Type} [LinearOrder α] : DecidableRel (numLex (α := α)) := fun a b => by
  unfold numLex; infer_instance

instance {α : Type} [LinearOrder α] : IsTotal (Nat × α) numLex where
  total a b := by
    rcases lt_trichotomy a.1 b.1 with h | h | h
    · exact Or.inl (Or.inl h)
    · rcases le_total a.2 b.2 with h2 | h2
      · exact Or.inl (Or.inr ⟨h, h2⟩)
      · exact Or.inr (Or.inr ⟨h.symm, h2⟩)
    · exact Or.inr (Or.inl h)

instance {α : Type} [LinearOrder α] : IsTrans (Nat × α) numLex where
  trans a b c hab hbc := by
    rcases hab with h1 | ⟨e1, l1⟩ <;> rcases hbc with h2 | ⟨e2, l2⟩
    · exact Or.inl (h1.trans h2)
    · exact Or.inl (e2 ▸ h1)
    · exact Or.inl (e1 ▸ h2)
    · exact Or.inr ⟨e1.trans e2, l1.trans l2⟩

instance {α : Type} [LinearOrder α] : IsAntisymm (Nat × α) numLex where
  antisymm a b hab hba := by
    rcases hab with h1 | ⟨e1, l1⟩ <;> rcases hba with h2 | ⟨e2, l2⟩
    · exact absurd (h1.trans h2) (lt_irrefl _)
    · exact absurd h1 (e2 ▸ lt_irrefl _)
    · exact absurd h2 (e1 ▸ lt_irrefl _)
    · exact Prod.ext e1 (le_antisymm l1 l2)

/-- checksum.S3EtagUnordered: remembers (chunk_number, md5 hex) per update. -/
structure S3EtagUnordered where
  checksums : List (Nat × String)
deriving Repr, DecidableEq

namespace S3EtagUnordered

/-- S3EtagUnordered(): empty checksum list. -/
def init : S3EtagUnordered := ⟨[]⟩

/-- update(chunk_number, data): append (chunk_number, md5(data).hexdigest()). -/
def update (s : S3EtagUnordered) (chunk_number : Nat) (data : Bytes) : S3EtagUnordered :=
  ⟨s.checksums ++ [(chunk_number, md5Hex data)]⟩

/-- hexdigest(): composite etag of the md5 hexes sorted by chunk number
(Python sorted on the (int, str) tuples). -/
def hexdigest (s : S3EtagUnordered) : String :=
  compute_composite_etag ((s.checksums.insertionSort numLex).map Prod.snd)

end S3EtagUnordered

/-- checksum.GScrc32cUnordered: a next-expected chunk number, the buffered
set of (number, bytes) pairs (represented canonically as the numLex-sorted
list Python's `sorted(self._chunks)` iterates), and the rolling crc32c. -/
structure GScrc32cUnordered where
  current : Nat
  chunks : List (Nat × Bytes)
  checksum : Crc32cState
deriving Repr, DecidableEq

namespace GScrc32cUnordered

/-- GScrc32cUnordered(): expecting chunk 0, empty buffer, crc32c(). -/
def init : GScrc32cUnordered := ⟨0, [], Crc32cState.mkCrc32c []⟩

/-- The update loop: walk the sorted buffer, folding each chunk that matches
the expected number into the crc and removing it, stopping at the first gap. -/
def drain (cur : Nat) (cs : Crc32cState) : List (Nat × Bytes) → Nat × Crc32cState × List (Nat × Bytes)
  | [] => (cur, cs, [])
  | (n, d) :: rest =>
      if n = cur then drain (cur + 1) (cs.update d) rest
      else (cur, cs, (n, d) :: rest)

/-- update(chunk_number, data): add the pair to the buffered set (a no-op when
already present) and drain the contiguous run starting at the expected number. -/
def update (s : GScrc32cUnordered) (chunk_number : Nat) (data : Bytes) : GScrc32cUnordered :=
  let buf := if (chunk_number, data) ∈ s.chunks then s.chunks
             else s.chunks.orderedInsert numLex (chunk_number, data)
  let r := drain s.current s.checksum buf
  ⟨r.1, r.2.2, r.2.1⟩

/-- hexdigest(): flush the remaining buffered chunks in sorted order and
return google_storage_crc32c() (the code's name notwithstanding, this is the
base64 GCS form). -/
def hexdigest (s : GScrc32cUnordered) : String :=
  (s.chunks.foldl (fun c p => c.update p.2) s.checksum).google_storage_crc32c

end GScrc32cUnordered

/-! ## ssds.blobstore.get_s3_multipart_chunk_size -/

/-- 1 MiB. -/
def MiB : Nat := 1024 ^ 2

/-- Files must be larger than this before we consider multipart uploads. -/
def AWS_MIN_CHUNK_SIZE : Nat := 64 * MiB

/-- Maximum number of parts allowed in a multipart upload. -/
def AWS_MAX_MULTIPART_COUNT : Nat := 10000

/-- blobstore.get_s3_multipart_chunk_size. Python computes
`ceil(filesize / AWS_MAX_MULTIPART_COUNT)` with float division; that equals
the exact ceiling for every filesize below 2^53 (object stores cap sizes at
5 TiB, far below), so it is embedded as exact ceiling division. -/
def get_s3_multipart_chunk_size (filesize : Nat) : Nat :=
  if filesize ≤ AWS_MAX_MULTIPART_COUNT * AWS_MIN_CHUNK_SIZE then
    AWS_MIN_CHUNK_SIZE
  else
    let raw_part_size := (filesize + (AWS_MAX_MULTIPART_COUNT - 1)) / AWS_MAX_MULTIPART_COUNT
    (raw_part_size + MiB - 1) / MiB * MiB

/-- C7: get_s3_multipart_chunk_size returns 64 MiB for every size up to
10000·64MiB (hence at exactly 10000·64MiB), returns 64MiB+1MiB at
10000·64MiB+1, returns ceil(size/10000) rounded up to the next whole MiB for
larger sizes, and is monotone non-decreasing in size. -/
theorem claim_C7 :
    (∀ s, s ≤ 10000 * (64 * MiB) → get_s3_multipart_chunk_size s = 64 * MiB)
    ∧ get_s3_multipart_chunk_size (10000 * (64 * MiB) + 1) = 64 * MiB + MiB
    ∧ (∀ s, 10000 * (64 * MiB) < s →
        get_s3_multipart_chunk_size s = ((s + 9999) / 10000 + (MiB - 1)) / MiB * MiB)
    ∧ ∀ a b, a ≤ b → get_s3_multipart_chunk_size a ≤ get_s3_multipart_chunk_size b := by
  refine ⟨?_, ?_, ?_, ?_⟩
  · intro s hs
    simp only [get_s3_multipart_chunk_size, AWS_MIN_CHUNK_SIZE, AWS_MAX_MULTIPART_COUNT, MiB] at *
    split_ifs <;> omega
  · simp only [get_s3_multipart_chunk_size, AWS_MIN_CHUNK_SIZE, AWS_MAX_MULTIPART_COUNT, MiB]
    split_ifs <;> omega
  · intro s hs
    simp only [get_s3_multipart_chunk_size, AWS_MIN_CHUNK_SIZE, AWS_MAX_MULTIPART_COUNT, MiB] at *
    split_ifs <;> omega
  · intro a b hab
    simp only [get_s3_multipart_chunk_size, AWS_MIN_CHUNK_SIZE, AWS_MAX_MULTIPART_COUNT, MiB]
    split_ifs <;> omega

/-- Witness for C7 at concrete sizes. -/
theorem claim_C7_witness :
    get_s3_multipart_chunk_size 1 = 64 * MiB
    ∧ get_s3_multipart_chunk_size (10000 * (64 * MiB) + 2 * MiB) =
        ((10000 * (64 * MiB) + 2 * MiB + 9999) / 10000 + (MiB - 1)) / MiB * MiB
    ∧ get_s3_multipart_chunk_size 5 ≤ get_s3_multipart_chunk_size 500 :=
  ⟨claim_C7.1 1 (by norm_num [MiB]),
   claim_C7.2.2.1 _ (by norm_num [MiB]),
   claim_C7.2.2.2 5 500 (by norm_num)⟩

/-! ## Correctness of GScrc32cUnordered (claim C2) -/

/-- Feed a list of (number, data) pairs to GScrc32cUnordered via update. -/
def gsFeed (p : List (Nat × Bytes)) : GScrc32cUnordered :=
  p.foldl (fun s x => s.update x.1 x.2) .init

/-- The crc32c step used when flushing buffered chunks. -/
def gsStep (c : Crc32cState) (y : Nat × Bytes) : Crc32cState := c.update y.2

/-- Invariant tying a GScrc32cUnordered state to the multiset of pairs fed so
far: the sorted feed splits into a drained part already folded into the crc
(whose numbers are exactly those below the expected number) followed by the
buffered chunks. -/
def GSInv (l : List (Nat × Bytes)) (s : GScrc32cUnordered) : Prop :=
  ∃ pre : List (Nat × Bytes),
    l.insertionSort numLex = pre ++ s.chunks ∧
    s.checksum = pre.foldl gsStep (Crc32cState.mkCrc32c []) ∧
    (∀ y ∈ pre, y.1 < s.current) ∧
    (∀ i, i < s.current → i ∈ pre.map Prod.fst)

namespace GScrc32cUnordered


theorem drain_spec (buf : List (Nat × Bytes)) : ∀ (cur : Nat) (cs : Crc32cState),
    ∃ dr, buf = dr ++ (drain cur cs buf).2.2 ∧
      (drain cur cs buf).2.1 = dr.foldl gsStep cs ∧
      cur ≤ (drain cur cs buf).1 ∧
      (∀ y ∈ dr, y.1 < (drain cur cs buf).1) ∧
      (∀ i, cur ≤ i → i < (drain cur cs buf).1 → i ∈ dr.map Prod.fst) := by
  induction buf with
  | nil =>
      intro cur cs
      refine ⟨[], by simp [drain], by simp [drain], le_refl _, by simp, ?_⟩
      intro i hi1 hi2
      simp only [drain] at hi2
      omega
  | cons hd tl ih =>
      intro cur cs
      by_cases h : hd.1 = cur
      · obtain ⟨dr, h1, h2, h3, h4, h5⟩ := ih (cur + 1) (cs.update hd.2)
        have hdr : drain cur cs (hd :: tl) = drain (cur + 1) (cs.update hd.2) tl := by
          rcases hd with ⟨n, d⟩
          simp only at h
          simp [drain, h]
        refine ⟨hd :: dr, ?_, ?_, ?_, ?_, ?_⟩
        · rw [hdr]; simpa using h1
        · rw [hdr]; simpa [gsStep] using h2
        · rw [hdr]; omega
        · rw [hdr]; intro y hy
          rcases List.mem_cons.mp hy with hy | hy
          · subst hy; omega
          · exact h4 y hy
        · rw [hdr]; intro i hi1 hi2
          rcases Nat.eq_or_lt_of_le hi1 with he | hlt
          · simp [← he, h]
          · simpa using Or.inr (h5 i hlt hi2)
      · have hdr : drain cur cs (hd :: tl) = (cur, cs, hd :: tl) := by
          rcases hd with ⟨n, d⟩
          simp only at h
          simp [drain, h]
        refine ⟨[], by simp [hdr], by simp [hdr], by simp [hdr], by simp, ?_⟩
        intro i hi1 hi2
        rw [hdr] at hi2
        omega

theorem inv_init : GSInv [] .init := by
  refine ⟨[], by simp [List.insertionSort, init], by simp [init], by simp, ?_⟩
  intro i hi
  simp only [init] at hi
  omega

theorem inv_update (l : List (Nat × Bytes)) (s : GScrc32cUnordered) (x : Nat × Bytes)
    (hInv : GSInv l s) (hx : x.1 ∉ l.map Prod.fst) :
    GSInv (l ++ [x]) (s.update x.1 x.2) := by
  obtain ⟨pre, hsort, hcrc, hlt, hmem⟩ := hInv
  have hsorted : (l.insertionSort numLex).Sorted numLex := List.sorted_insertionSort _ _
  rw [hsort] at hsorted
  have hparts := List.pairwise_append.mp hsorted
  have hpre_sorted : pre.Sorted numLex := hparts.1
  have hchunks_sorted : s.chunks.Sorted numLex := hparts.2.1
  have hcross : ∀ y ∈ pre, ∀ z ∈ s.chunks, numLex y z := hparts.2.2
  -- the fed pair is new, so the membership test in update takes the insert branch
  have hxl : x ∉ l := fun hmem' => hx (List.mem_map_of_mem Prod.fst hmem')
  have hxchunks : x ∉ s.chunks := by
    intro hc
    have hx2 : x ∈ pre ++ s.chunks := List.mem_append_right _ hc
    rw [← hsort] at hx2
    exact hxl ((l.perm_insertionSort numLex).mem_iff.mp hx2)
  -- the fed number is at least the expected number
  have hxcur : s.current ≤ x.1 := by
    by_contra hcon
    push_neg at hcon
    obtain ⟨y, hy, hyx⟩ := List.mem_map.mp (hmem x.1 hcon)
    have hy2 : y ∈ pre ++ s.chunks := List.mem_append_left _ hy
    rw [← hsort] at hy2
    have : y.1 ∈ l.map Prod.fst :=
      List.mem_map_of_mem Prod.fst ((l.perm_insertionSort numLex).mem_iff.mp hy2)
    exact hx (hyx ▸ this)
  -- sorted feed of l ++ [x] decomposes as pre followed by the inserted buffer
  have hbufsort : ((l ++ [x]).insertionSort numLex) = pre ++ s.chunks.orderedInsert numLex x := by
    refine List.eq_of_perm_of_sorted ?_ (List.sorted_insertionSort _ _) ?_
    · have p1 : List.Perm ((l ++ [x]).insertionSort numLex) (l ++ [x]) :=
        List.perm_insertionSort _ _
      have p2 : List.Perm (l ++ [x]) ((pre ++ s.chunks) ++ [x]) := by
        rw [← hsort]
        exact (l.perm_insertionSort numLex).symm.append_right [x]
      have p3 : List.Perm ((pre ++ s.chunks) ++ [x]) (pre ++ (x :: s.chunks)) := by
        rw [List.append_assoc]
        exact List.Perm.append_left pre (@List.perm_append_comm _ s.chunks [x])
      have p4 : List.Perm (pre ++ (x :: s.chunks)) (pre ++ s.chunks.orderedInsert numLex x) :=
        List.Perm.append_left pre (s.chunks.perm_orderedInsert numLex x).symm
      exact p1.trans (p2.trans (p3.trans p4))
    · show List.Pairwise numLex (pre ++ s.chunks.orderedInsert numLex x)
      refine List.pairwise_append.mpr ⟨hpre_sorted, List.Sorted.orderedInsert x s.chunks hchunks_sorted, ?_⟩
      intro y hy z hz
      rcases (List.mem_orderedInsert _).mp hz with hz | hz
      · subst hz
        exact Or.inl (lt_of_lt_of_le (hlt y hy) hxcur)
      · exact hcross y hy z hz
  -- run the drain on the inserted buffer
  obtain ⟨dr, hd1, hd2, hd3, hd4, hd5⟩ :=
    drain_spec (s.chunks.orderedInsert numLex x) s.current s.checksum
  have hch : (update s x.1 x.2).chunks
      = (drain s.current s.checksum (s.chunks.orderedInsert numLex x)).2.2 := by
    simp [update, if_neg hxchunks]
  have hcs : (update s x.1 x.2).checksum
      = (drain s.current s.checksum (s.chunks.orderedInsert numLex x)).2.1 := by
    simp [update, if_neg hxchunks]
  have hcu : (update s x.1 x.2).current
      = (drain s.current s.checksum (s.chunks.orderedInsert numLex x)).1 := by
    simp [update, if_neg hxchunks]
  refine ⟨pre ++ dr, ?_, ?_, ?_, ?_⟩
  · rw [hch, hbufsort]
    conv_lhs => rw [hd1]
    rw [List.append_assoc]
  · rw [hcs, hd2, List.foldl_append, hcrc]
  · intro y hy
    rw [hcu]
    rcases List.mem_append.mp hy with hy | hy
    · exact lt_of_lt_of_le (hlt y hy) hd3
    · exact hd4 y hy
  · intro i hi
    rw [hcu] at hi
    rw [List.map_append, List.mem_append]
    by_cases hcase : i < s.current
    · exact Or.inl (hmem i hcase)
    · exact Or.inr (hd5 i (le_of_not_lt hcase) hi)

theorem inv_feed (l : List (Nat × Bytes)) (hnd : (l.map Prod.fst).Nodup) :
    GSInv l (gsFeed l) := by
  induction l using List.reverseRecOn with
  | nil => exact inv_init
  | append_singleton l x ih =>
      rw [List.map_append] at hnd
      have hndl : (l.map Prod.fst).Nodup := hnd.of_append_left
      have hx : x.1 ∉ l.map Prod.fst := by
        intro hcon
        exact List.disjoint_of_nodup_append hnd hcon (by simp)
      have hfeed : gsFeed (l ++ [x]) = (gsFeed l).update x.1 x.2 := by
        simp [gsFeed, List.foldl_append]
      rw [hfeed]
      exact inv_update l (gsFeed l) x (ih hndl) hx

end GScrc32cUnordered

/-- The enumeration of a list is sorted under the Python tuple order. -/
theorem enum_sorted {α : Type} [LinearOrder α] (l : List α) :
    l.enum.Sorted (numLex (α := α)) := by
  rw [List.Sorted, List.pairwise_iff_getElem]
  intro i j hi hj hij
  left
  rw [List.getElem_enum, List.getElem_enum]
  exact hij

/-- Folding crc32c updates over a list of byte chunks is the crc of the
concatenation. -/
theorem foldl_update_flatten (ds : List Bytes) (c : Crc32cState) :
    ds.foldl (fun a d => a.update d) c = ⟨crc32cUpdBytes c.reg ds.flatten⟩ := by
  induction ds generalizing c with
  | nil => simp [crc32cUpdBytes]
  | cons d rest ih =>
      simp only [List.foldl_cons, List.flatten_cons, ih]
      simp [Crc32cState.update, crc32cUpdBytes, List.foldl_append]

/-- Core correctness of GScrc32cUnordered: any permutation of the enumerated
chunks digests to the CRC32C of the in-order concatenation. -/
theorem gsFeed_hexdigest_of_perm_enum (chunks : List Bytes) (p : List (Nat × Bytes))
    (hperm : List.Perm p chunks.enum) :
    (gsFeed p).hexdigest = gcsCrc32cB64 chunks.flatten := by
  have hnd : (p.map Prod.fst).Nodup :=
    ((hperm.map Prod.fst).nodup_iff).mpr (List.nodup_enum_map_fst chunks)
  obtain ⟨pre, hsort, hcrc, _, _⟩ := GScrc32cUnordered.inv_feed p hnd
  have hsort_eq : p.insertionSort numLex = chunks.enum :=
    List.eq_of_perm_of_sorted ((p.perm_insertionSort numLex).trans hperm)
      (List.sorted_insertionSort _ _) (enum_sorted chunks)
  have hhex : (gsFeed p).hexdigest
      = ((pre ++ (gsFeed p).chunks).foldl gsStep (Crc32cState.mkCrc32c [])).google_storage_crc32c := by
    rw [List.foldl_append, ← hcrc]
    rfl
  rw [hhex, ← hsort, hsort_eq]
  have hmapfold : chunks.enum.foldl gsStep (Crc32cState.mkCrc32c [])
      = (chunks.enum.map Prod.snd).foldl (fun a d => a.update d) (Crc32cState.mkCrc32c []) := by
    rw [List.foldl_map]
    rfl
  rw [hmapfold, List.enum_map_snd, foldl_update_flatten]
  rfl

/-- C2: for every byte string split into densely numbered parts and every
permutation of those parts, feeding the permuted (number, data) pairs to
GScrc32cUnordered via update and then calling hexdigest yields exactly the
GCS base64 CRC32C of the concatenation of the parts in ascending number
order. -/
theorem claim_C2 (chunks : List Bytes) (p : List (Nat × Bytes))
    (hperm : List.Perm p chunks.enum) :
    (gsFeed p).hexdigest = gcsCrc32cB64 chunks.flatten :=
  gsFeed_hexdigest_of_perm_enum chunks p hperm

/-- Witness for C2: three chunks fed in the order 1, 0, 2. -/
theorem claim_C2_witness :
    (gsFeed [(1, [4, 5]), (0, [1, 2, 3]), (2, [6])]).hexdigest
      = gcsCrc32cB64 ([[1, 2, 3], [4, 5], [6]] : List Bytes).flatten :=
  claim_C2 [[1, 2, 3], [4, 5], [6]] [(1, [4, 5]), (0, [1, 2, 3]), (2, [6])] (by decide)

/-! ## Part iterators (S3AsyncPartIterator / GSAsyncPartIterator /
LocalAsyncPartIterator all chunk identically) -/

/-- number_of_parts: ceil(size/chunk) when 0 < size else 1. -/
def numberOfParts (size chunk : Nat) : Nat :=
  if 0 < size then (size + chunk - 1) / chunk else 1

/-- The ranged reads of the part iterators: part i is
data[i*chunk : (i+1)*chunk], with the chunk size derived from the size by
get_s3_multipart_chunk_size. -/
def dataChunks (data : Bytes) : List Bytes :=
  let chunk := get_s3_multipart_chunk_size data.length
  (List.range (numberOfParts data.length chunk)).map fun i => (data.drop (i * chunk)).take chunk

/-- parts(): Part(number, data) pairs in ascending number order (the order the
sequential embedding of the async iterators yields them). -/
def partsOfData (data : Bytes) : List (Nat × Bytes) :=
  let chunk := get_s3_multipart_chunk_size data.length
  (List.range (numberOfParts data.length chunk)).map fun i => (i, (data.drop (i * chunk)).take chunk)

theorem partsOfData_eq_enum (data : Bytes) : partsOfData data = (dataChunks data).enum := by
  apply List.ext_getElem
  · simp [partsOfData, dataChunks, List.enum_length]
  · intro i h1 h2
    simp only [partsOfData, dataChunks, List.getElem_enum, List.getElem_map, List.getElem_range]

/-- Concatenating the ranged slices recovers the data (auxiliary, by strong
induction on a length bound). -/
theorem flatten_range_slices_aux (chunk : Nat) (hc : 0 < chunk) :
    ∀ (n : Nat) (data : Bytes), data.length ≤ n → 0 < data.length →
      ((List.range ((data.length + chunk - 1) / chunk)).map
          fun i => (data.drop (i * chunk)).take chunk).flatten = data := by
  intro n
  induction n with
  | zero => intro data h1 h2; omega
  | succ n ih =>
      intro data h1 h2
      by_cases hle : data.length ≤ chunk
      · have hparts : (data.length + chunk - 1) / chunk = 1 := by
          refine Nat.div_eq_of_lt_le (by omega) (by omega)
        rw [hparts]
        simp [List.range_succ, List.take_of_length_le hle]
      · have hsplit : data.length + chunk - 1 = (data.length - chunk) + chunk - 1 + chunk := by
          omega
        have hparts : (data.length + chunk - 1) / chunk
            = ((data.length - chunk) + chunk - 1) / chunk + 1 := by
          rw [hsplit, Nat.add_div_right _ hc]
        rw [hparts, List.range_succ_eq_map, List.map_cons, List.flatten_cons, List.map_map]
        have hshift : ((List.range (((data.length - chunk) + chunk - 1) / chunk)).map
            ((fun i => (data.drop (i * chunk)).take chunk) ∘ Nat.succ))
            = (List.range (((data.drop chunk).length + chunk - 1) / chunk)).map
                (fun i => ((data.drop chunk).drop (i * chunk)).take chunk) := by
          rw [List.length_drop]
          apply List.map_congr_left
          intro i _
          simp only [Function.comp_apply]
          rw [List.drop_drop]
          congr 2
          simp [Nat.succ_mul]
          omega
        rw [hshift, ih (data.drop chunk) (by simp; omega) (by simp; omega)]
        simp [List.take_append_drop]

/-- Concatenating the ranged slices recovers the data (chunk size positive). -/
theorem flatten_dataChunks (data : Bytes) : (dataChunks data).flatten = data := by
  have hc : 0 < get_s3_multipart_chunk_size data.length := by
    have h64 : 0 < AWS_MIN_CHUNK_SIZE := by norm_num [AWS_MIN_CHUNK_SIZE, MiB]
    simp only [get_s3_multipart_chunk_size]
    split_ifs
    · exact h64
    · simp only [AWS_MIN_CHUNK_SIZE, AWS_MAX_MULTIPART_COUNT, MiB] at *
      omega
  by_cases h0 : data.length = 0
  · have hdata : data = [] := List.length_eq_zero.mp h0
    simp [dataChunks, numberOfParts, hdata]
  · simp only [dataChunks, numberOfParts, if_pos (Nat.pos_of_ne_zero h0)]
    exact flatten_range_slices_aux _ hc data.length data (le_refl _) (Nat.pos_of_ne_zero h0)

/-! ## Correctness of S3EtagUnordered under permuted feeds -/

/-- Feed a list of (number, data) pairs to S3EtagUnordered via update. -/
def s3Feed (p : List (Nat × Bytes)) : S3EtagUnordered :=
  p.foldl (fun s x => s.update x.1 x.2) .init

theorem s3Feed_checksums (p : List (Nat × Bytes)) :
    (s3Feed p).checksums = p.map fun x => (x.1, md5Hex x.2) := by
  induction p using List.reverseRecOn with
  | nil => rfl
  | append_singleton l x ih =>
      simp only [s3Feed, List.foldl_append, List.foldl_cons, List.foldl_nil, List.map_append]
      simp only [s3Feed] at ih
      rw [← ih]
      rfl

/-- Mapping a function over the payloads commutes with enumeration. -/
theorem enum_map_pair {α β : Type} (l : List α) (g : α → β) :
    l.enum.map (fun x => (x.1, g x.2)) = (l.map g).enum := by
  apply List.ext_getElem
  · simp [List.enum_length]
  · intro i h1 h2
    simp [List.getElem_enum]

/-- Feeding any permutation of the enumerated chunks to S3EtagUnordered
digests to the composite etag of the per-chunk MD5s in ascending order. -/
theorem s3Feed_hexdigest_of_perm_enum (chunks : List Bytes) (p : List (Nat × Bytes))
    (hperm : List.Perm p chunks.enum) :
    (s3Feed p).hexdigest = compute_composite_etag (chunks.map md5Hex) := by
  have hperm2 : List.Perm ((s3Feed p).checksums) ((chunks.map md5Hex).enum) := by
    rw [s3Feed_checksums, ← enum_map_pair]
    exact hperm.map _
  have hsort : ((s3Feed p).checksums).insertionSort numLex = (chunks.map md5Hex).enum :=
    List.eq_of_perm_of_sorted
      (((s3Feed p).checksums.perm_insertionSort numLex).trans hperm2)
      (List.sorted_insertionSort _ _) (enum_sorted _)
  show compute_composite_etag ((((s3Feed p).checksums).insertionSort numLex).map Prod.snd)
      = compute_composite_etag (chunks.map md5Hex)
  rw [hsort, List.enum_map_snd]

/-- A sorted pair list is fixed by the sort (used for in-order part feeds). -/
theorem insertionSort_eq_self_of_sorted {α : Type} [LinearOrder α]
    (l : List (Nat × α)) (h : l.Sorted numLex) : l.insertionSort numLex = l :=
  List.eq_of_perm_of_sorted (l.perm_insertionSort numLex)
    (List.sorted_insertionSort _ _) h

/-! ## ssds.storage: blobs, adapters and the copy engine

The three adapters are embedded over a single world mapping URLs to objects.
The Blob base class file itself is absent from the snapshot (only the old
module-level interface is present), so the pieces the adapters inherit are
modelled from the spec: Blob is a (store, key) record, `exists` is object
presence, and absent objects raise BlobNotFound. Cloud-native checksums
follow spec section 3: an S3 object's ETag is the MD5 of its bytes for
whole-object writes and the composite etag for multipart writes; a GCS
object's crc32c is the base64 CRC32C of its bytes. The concurrency fabric is
embedded sequentially: a task runs at put() and consume yields results in
submission order. -/

deriving instance DecidableEq for Except

/-- Python exception kinds surfaced by the embedded code. -/
inductive PyErr where
  | valueError
  | assertionError
  | keyError
  | attributeError
  | blobNotFound
  | blobStoreUnknown
  | missingChecksum
  | incorrectChecksum
  | notImplementedError
  | runtimeError
deriving Repr, DecidableEq

/-- Which adapter a blob belongs to. -/
inductive BlobKind where
  | s3
  | gs
  | loc
deriving Repr, DecidableEq

/-- A blob handle: adapter kind, canonical url, and (for GCS) the resolved
billing project of its bucket. -/
structure BlobRef where
  kind : BlobKind
  url : String
  gsUserProject : Option String := none
deriving Repr, DecidableEq

/-- A stored object: bytes, tags, and the store-native checksum. -/
structure ObjRec where
  data : Bytes
  tags : List (String × String)
  native : String
deriving Repr, DecidableEq

/-- The world: an association of urls to stored objects. -/
abbrev World := List (String × ObjRec)

namespace World

/-- Look up the object at a url. -/
def find (w : World) (url : String) : Option ObjRec :=
  match w with
  | [] => none
  | (k, v) :: rest => if k = url then some v else find rest url

/-- Store an object at a url, replacing any existing object. -/
def put (w : World) (url : String) (o : ObjRec) : World :=
  match w with
  | [] => [(url, o)]
  | (k, v) :: rest => if k = url then (k, o) :: rest else (k, v) :: put rest url o

theorem find_put_self (w : World) (url : String) (o : ObjRec) :
    (w.put url o).find url = some o := by
  induction w with
  | nil => simp [put, find]
  | cons hd tl ih =>
      by_cases h : hd.1 = url
      · rcases hd with ⟨k, v⟩
        simp only at h
        simp [put, find, h]
      · rcases hd with ⟨k, v⟩
        simp only at h
        simp [put, find, h, ih]

theorem find_put_ne (w : World) (url url' : String) (o : ObjRec) (h : url' ≠ url) :
    (w.put url o).find url' = w.find url' := by
  induction w with
  | nil => simp [put, find, Ne.symm h]
  | cons hd tl ih =>
      rcases hd with ⟨k, v⟩
      by_cases hk : k = url
      · subst hk
        simp [put, find, Ne.symm h]
      · simp [put, find, hk, ih]

end World

/-- The native checksum a store assigns to a whole-object write
(S3 put ETag / GCS upload crc32c). -/
def oneshotNative (kind : BlobKind) (data : Bytes) : String :=
  match kind with
  | .s3 => md5Hex data
  | .gs => gcsCrc32cB64 data
  | .loc => ""

/-- The native checksum a store assigns to a multipart write from the chunks
in ascending part order (S3 composite etag / GCS crc32c of the whole). -/
def multipartNative (kind : BlobKind) (chunks : List Bytes) : String :=
  match kind with
  | .s3 => compute_composite_etag (chunks.map md5Hex)
  | .gs => gcsCrc32cB64 chunks.flatten
  | .loc => ""

/-- Blob.exists(). -/
def blobExists (w : World) (b : BlobRef) : Bool :=
  (w.find b.url).isSome

/-- Blob.get(): the whole object, BlobNotFound when absent. -/
def blobGet (w : World) (b : BlobRef) : Except PyErr Bytes :=
  match w.find b.url with
  | some o => .ok o.data
  | none => .error .blobNotFound

/-- Blob.size(). -/
def blobSize (w : World) (b : BlobRef) : Except PyErr Nat :=
  match w.find b.url with
  | some o => .ok o.data.length
  | none => .error .blobNotFound

/-- Blob.get_tags(). -/
def blobGetTags (w : World) (b : BlobRef) : Except PyErr (List (String × String)) :=
  match w.find b.url with
  | some o => .ok o.tags
  | none => .error .blobNotFound

/-- Blob.put_tags(). -/
def blobPutTags (w : World) (b : BlobRef) (tags : List (String × String)) :
    Except PyErr World :=
  match w.find b.url with
  | some o => .ok (w.put b.url ⟨o.data, tags, o.native⟩)
  | none => .error .blobNotFound

/-- Blob.put(data): whole-object write; a fresh object carries no tags. -/
def blobPut (w : World) (b : BlobRef) (data : Bytes) : World :=
  w.put b.url ⟨data, [], oneshotNative b.kind data⟩

/-- Blob.cloud_native_checksum(). -/
def cloudNativeChecksum (w : World) (b : BlobRef) : Except PyErr String :=
  match w.find b.url with
  | some o => .ok o.native
  | none => .error .blobNotFound

/-- Blob.parts(): the part iterator raises BlobNotFound when absent, else
yields the ranged chunks. -/
def blobParts (w : World) (b : BlobRef) : Except PyErr (List (Nat × Bytes)) :=
  match w.find b.url with
  | some o => .ok (partsOfData o.data)
  | none => .error .blobNotFound

/-- Blob.multipart_writer() scope fed with the given parts: on close the
writers order the received parts by part number and materialise the
concatenation, with the store-native multipart checksum. -/
def blobMultipartWrite (w : World) (b : BlobRef) (parts : List (Nat × Bytes)) : World :=
  let sorted := parts.insertionSort numLex
  w.put b.url ⟨(sorted.map Prod.snd).flatten, [],
               multipartNative b.kind (sorted.map Prod.snd)⟩

/-- Python truthiness of an optional string (None and "" are falsy). -/
def pyTruthyOptStr (s : Option String) : Bool :=
  match s with
  | none => false
  | some v => v ≠ ""

/-! ### Adapter copy_from implementations -/

/-- S3Blob.copy_from: no-op on identical urls; server-side CopyObject when the
source fits one chunk (S3 recomputes a whole-object ETag and copies the tag
set); otherwise a server-side multipart copy chunk by chunk, completed with a
composite etag and no tags. -/
def s3CopyFrom (w : World) (dst src : BlobRef) : Except PyErr World :=
  if dst.url ≠ src.url then
    match w.find src.url with
    | none => .error .blobNotFound
    | some o =>
        let size := o.data.length
        let part_size := get_s3_multipart_chunk_size size
        if part_size ≥ size then
          .ok (w.put dst.url ⟨o.data, o.tags, md5Hex o.data⟩)
        else
          .ok (blobMultipartWrite w dst (partsOfData o.data))
  else .ok w

/-- GSBlob.copy_from: no-op on identical urls; server-side rewrite (which
preserves bytes, metadata and crc32c) unless the source bucket is
requester-pays, in which case the bytes go through a multipart passthrough. -/
def gsCopyFrom (w : World) (dst src : BlobRef) : Except PyErr World :=
  if dst.url ≠ src.url then
    if pyTruthyOptStr src.gsUserProject = false then
      match w.find src.url with
      | none => .error .blobNotFound
      | some o => .ok (w.put dst.url ⟨o.data, o.tags, gcsCrc32cB64 o.data⟩)
    else
      match w.find src.url with
      | none => .error .blobNotFound
      | some o => .ok (blobMultipartWrite w dst (partsOfData o.data))
  else .ok w

/-- LocalBlob.copy_from: no-op on identical urls, else a file copy. -/
def localCopyFrom (w : World) (dst src : BlobRef) : Except PyErr World :=
  if dst.url ≠ src.url then
    match w.find src.url with
    | none => .error .blobNotFound
    | some o => .ok (w.put dst.url ⟨o.data, [], ""⟩)
  else .ok w

/-- Dispatch copy_from by destination adapter. -/
def copyFromDispatch (w : World) (dst src : BlobRef) : Except PyErr World :=
  match dst.kind with
  | .s3 => s3CopyFrom w dst src
  | .gs => gsCopyFrom w dst src
  | .loc => localCopyFrom w dst src

/-- copy_from_is_multipart: S3 compares the source size against the chunk
size; GCS returns whether the source bucket has a billing project; local is
always false. -/
def copyFromIsMultipart (w : World) (dst src : BlobRef) : Except PyErr Bool :=
  match dst.kind with
  | .s3 =>
      match blobSize w src with
      | .ok size => .ok (decide (size ≥ get_s3_multipart_chunk_size size))
      | .error e => .error e
  | .gs => .ok (src.gsUserProject ≠ none)
  | .loc => .ok false

/-! ### storage module copy functions and CopyClient -/

/-- SSDSObjectTag.SSDS_MD5. -/
def SSDS_MD5 : String := "SSDS_MD5"

/-- SSDSObjectTag.SSDS_CRC32C. -/
def SSDS_CRC32C : String := "SSDS_CRC32C"

/-- Tag map lookup (Python dict indexing on string keys). -/
def tagLookup (tags : List (String × String)) (k : String) : Option String :=
  match tags with
  | [] => none
  | (k', v) :: rest => if k' = k then some v else tagLookup rest k

/-- storage._copy_to_local: download the source to the local path and return
empty tags. -/
def copyToLocalF (src dst : BlobRef) (w : World) :
    World × Except PyErr (Option (List (String × String))) :=
  match blobGet w src with
  | .error e => (w, .error e)
  | .ok data => (w.put dst.url ⟨data, [], ""⟩, .ok (some []))

/-- storage._copy_intra_cloud: dst.copy_from(src) then the source tags. -/
def copyIntraCloudF (src dst : BlobRef) (w : World) :
    World × Except PyErr (Option (List (String × String))) :=
  match copyFromDispatch w dst src with
  | .error e => (w, .error e)
  | .ok w1 =>
      match blobGetTags w1 src with
      | .error e => (w1, .error e)
      | .ok tags => (w1, .ok (some tags))

/-- storage.copy_oneshot_passthrough: get, optionally compute both checksums,
put. -/
def copyOneshotPassthrough (src dst : BlobRef) (computeChecksums : Bool) (w : World) :
    World × Except PyErr (Option (List (String × String))) :=
  match blobGet w src with
  | .error e => (w, .error e)
  | .ok data =>
      let checksums := if computeChecksums then
          some [(SSDS_MD5, md5Hex data), (SSDS_CRC32C, gcsCrc32cB64 data)]
        else none
      (blobPut w dst data, .ok checksums)

/-- storage.copy_multipart_passthrough: stream the source parts into the
destination multipart writer, optionally threading them through
S3EtagUnordered and GScrc32cUnordered. -/
def copyMultipartPassthrough (src dst : BlobRef) (computeChecksums : Bool) (w : World) :
    World × Except PyErr (Option (List (String × String))) :=
  match blobParts w src with
  | .error e => (w, .error e)
  | .ok parts =>
      let w1 := blobMultipartWrite w dst parts
      if computeChecksums then
        (w1, .ok (some [(SSDS_MD5, (s3Feed parts).hexdigest),
                        (SSDS_CRC32C, (gsFeed parts).hexdigest)]))
      else (w1, .ok none)

/-- storage.verify_checksums: for a cloud destination, require the reserved
tag for its platform and compare it with the native checksum; a missing tag
raises SSDSMissingChecksum unless downgraded, a mismatch raises
SSDSIncorrectChecksum. -/
def verifyChecksums (dst : BlobRef) (tags : List (String × String))
    (ignoreMissingChecksums : Bool) (w : World) : Except PyErr Unit :=
  match dst.kind with
  | .loc => .ok ()
  | k =>
      let tagName := if k = .s3 then SSDS_MD5 else SSDS_CRC32C
      match tagLookup tags tagName with
      | some v =>
          match cloudNativeChecksum w dst with
          | .error e => .error e
          | .ok native => if v ≠ native then .error .incorrectChecksum else .ok ()
      | none => if ignoreMissingChecksums then .ok () else .error .missingChecksum

/-- CopyClient state: the world plus the completed set, kept as the sequence
of completion tuples in publication order. -/
structure CCState where
  world : World
  completed : List (BlobRef × BlobRef × Option PyErr)
  ignoreMissingChecksums : Bool := false
deriving Repr, DecidableEq

/-- CopyClient._do_copy: run the copy function, then for non-local
destinations fall back to the source tags when the function produced none
(Python `tags or src_blob.get_tags()`), verify, and write the tags. Exactly
one completion tuple is added, carrying the exception if any stage failed. -/
def doCopy (st : CCState)
    (f : World → World × Except PyErr (Option (List (String × String))))
    (src dst : BlobRef) : CCState :=
  let r := f st.world
  match r.2 with
  | .error e => ⟨r.1, st.completed ++ [(src, dst, some e)], st.ignoreMissingChecksums⟩
  | .ok tagsOpt =>
      if dst.kind = .loc then
        ⟨r.1, st.completed ++ [(src, dst, none)], st.ignoreMissingChecksums⟩
      else
        let tagsRes : Except PyErr (List (String × String)) :=
          match tagsOpt with
          | some tags => if tags = [] then blobGetTags r.1 src else .ok tags
          | none => blobGetTags r.1 src
        match tagsRes with
        | .error e => ⟨r.1, st.completed ++ [(src, dst, some e)], st.ignoreMissingChecksums⟩
        | .ok tags =>
            match verifyChecksums dst tags st.ignoreMissingChecksums r.1 with
            | .error e => ⟨r.1, st.completed ++ [(src, dst, some e)], st.ignoreMissingChecksums⟩
            | .ok _ =>
                match blobPutTags r.1 dst tags with
                | .error e => ⟨r.1, st.completed ++ [(src, dst, some e)], st.ignoreMissingChecksums⟩
                | .ok w2 => ⟨w2, st.completed ++ [(src, dst, none)], st.ignoreMissingChecksums⟩

/-- CopyClient.copy: nothing happens (an error is only logged) when the
source does not exist; otherwise exactly one transfer strategy runs through
_do_copy. The second component is an exception propagated to the caller
outside the completion stream (none in this sequential embedding's reachable
states). -/
def ccCopy (st : CCState) (src dst : BlobRef) : CCState × Option PyErr :=
  if blobExists st.world src then
    if dst.kind = .loc then
      (doCopy st (copyToLocalF src dst) src dst, none)
    else if src.kind = dst.kind then
      match copyFromIsMultipart st.world dst src with
      | .error e => (st, some e)
      | .ok _ => (doCopy st (copyIntraCloudF src dst) src dst, none)
    else
      match blobSize st.world src with
      | .error e => (st, some e)
      | .ok size =>
          if size ≤ get_s3_multipart_chunk_size size then
            (doCopy st (copyOneshotPassthrough src dst (decide (src.kind = .loc))) src dst, none)
          else
            (doCopy st (copyMultipartPassthrough src dst (decide (src.kind = .loc))) src dst, none)
  else (st, none)

/-- CopyClient.copy_compute_checksums: size is read on the calling thread
(its BlobNotFound propagates to the caller), then the oneshot or multipart
passthrough runs with checksum computation on. -/
def ccCopyComputeChecksums (st : CCState) (src dst : BlobRef) : CCState × Option PyErr :=
  match blobSize st.world src with
  | .error e => (st, some e)
  | .ok size =>
      if size ≤ get_s3_multipart_chunk_size size then
        (doCopy st (copyOneshotPassthrough src dst true) src dst, none)
      else
        (doCopy st (copyMultipartPassthrough src dst true) src dst, none)

/-- C10: for each adapter (S3, GCS, local), copy_from with a source whose url
equals the destination's performs no store operation and returns
successfully, leaving the destination object's bytes and tags unchanged. -/
theorem claim_C10 (w : World) (src dst : BlobRef) (h : dst.url = src.url) :
    s3CopyFrom w dst src = .ok w
    ∧ gsCopyFrom w dst src = .ok w
    ∧ localCopyFrom w dst src = .ok w := by
  refine ⟨?_, ?_, ?_⟩
  · simp [s3CopyFrom, h]
  · simp [gsCopyFrom, h]
  · simp [localCopyFrom, h]

/-- Witness for C10 on a world holding one object. -/
theorem claim_C10_witness :
    s3CopyFrom [("s3://b/k", ⟨[1], [("t", "v")], "x"⟩)] ⟨.s3, "s3://b/k", none⟩
        ⟨.s3, "s3://b/k", none⟩ = .ok [("s3://b/k", ⟨[1], [("t", "v")], "x"⟩)]
    ∧ gsCopyFrom [("s3://b/k", ⟨[1], [("t", "v")], "x"⟩)] ⟨.s3, "s3://b/k", none⟩
        ⟨.s3, "s3://b/k", none⟩ = .ok [("s3://b/k", ⟨[1], [("t", "v")], "x"⟩)]
    ∧ localCopyFrom [("s3://b/k", ⟨[1], [("t", "v")], "x"⟩)] ⟨.s3, "s3://b/k", none⟩
        ⟨.s3, "s3://b/k", none⟩ = .ok [("s3://b/k", ⟨[1], [("t", "v")], "x"⟩)] :=
  claim_C10 [("s3://b/k", ⟨[1], [("t", "v")], "x"⟩)] ⟨.s3, "s3://b/k", none⟩
    ⟨.s3, "s3://b/k", none⟩ rfl

/-- Every _do_copy call publishes exactly one completion tuple for its pair. -/
theorem doCopy_completed (st : CCState)
    (f : World → World × Except PyErr (Option (List (String × String))))
    (src dst : BlobRef) :
    ∃ e, (doCopy st f src dst).completed = st.completed ++ [(src, dst, e)] := by
  simp only [doCopy]
  repeat' split
  all_goals exact ⟨_, rfl⟩

/-- copy_from_is_multipart never raises when the source exists. -/
theorem copyFromIsMultipart_ok (w : World) (dst src : BlobRef)
    (hex : blobExists w src = true) :
    ∃ b, copyFromIsMultipart w dst src = .ok b := by
  unfold copyFromIsMultipart
  rcases hdk : dst.kind with _ | _ | _
  · dsimp only
    rcases hfind : w.find src.url with _ | o
    · rw [blobExists, hfind] at hex
      simp at hex
    · rw [show blobSize w src = .ok o.data.length from by simp [blobSize, hfind]]
      exact ⟨_, rfl⟩
  · exact ⟨_, rfl⟩
  · exact ⟨_, rfl⟩

/-- C6 (amended): when the source blob exists, CopyClient.copy publishes
exactly one completion tuple for (src, dst) — nil on success, the raised
exception otherwise; when the source blob does not exist, copy only logs an
error: the state is unchanged and no completion tuple is ever published for
the pair. -/
theorem claim_C6 (st : CCState) (src dst : BlobRef) :
    (blobExists st.world src = true →
      ∃ e, (ccCopy st src dst).1.completed = st.completed ++ [(src, dst, e)])
    ∧ (blobExists st.world src = false →
      (ccCopy st src dst).1 = st ∧ (ccCopy st src dst).2 = none) := by
  constructor
  · intro hex
    unfold ccCopy
    rw [hex]
    simp only [if_true]
    by_cases hloc : dst.kind = .loc
    · rw [if_pos hloc]
      exact doCopy_completed _ _ _ _
    · rw [if_neg hloc]
      by_cases hsame : src.kind = dst.kind
      · rw [if_pos hsame]
        obtain ⟨b, hb⟩ := copyFromIsMultipart_ok st.world dst src hex
        rw [hb]
        exact doCopy_completed _ _ _ _
      · rw [if_neg hsame]
        rcases hfind : st.world.find src.url with _ | o
        · rw [blobExists, hfind] at hex
          simp at hex
        · have hsz : blobSize st.world src = .ok o.data.length := by
            simp [blobSize, hfind]
          rw [hsz]
          split
          · simp_all
          · rename_i size heq
            injection heq with heq2
            subst heq2
            by_cases hsize : o.data.length ≤ get_s3_multipart_chunk_size o.data.length
            · rw [if_pos hsize]
              exact doCopy_completed _ _ _ _
            · rw [if_neg hsize]
              exact doCopy_completed _ _ _ _
  · intro hex
    unfold ccCopy
    rw [hex]
    exact ⟨rfl, rfl⟩

/-- Witness for C6 at a concrete existing source. -/
theorem claim_C6_witness :
    ∃ e, (ccCopy ⟨[("f", ⟨[1], [], ""⟩)], [], false⟩ ⟨.loc, "f", none⟩
        ⟨.loc, "g", none⟩).1.completed = [] ++ [(⟨.loc, "f", none⟩, ⟨.loc, "g", none⟩, e)] :=
  (claim_C6 ⟨[("f", ⟨[1], [], ""⟩)], [], false⟩ ⟨.loc, "f", none⟩ ⟨.loc, "g", none⟩).1
    (by decide)

/-- Counterexample to C6 as stated: a copy whose source blob does not exist
publishes no completion tuple at all (the claim demands a COMPLETE(err)
tuple). -/
theorem claim_C6_counterexample :
    (ccCopy ⟨[], [], false⟩ ⟨.s3, "s3://b/missing", none⟩
        ⟨.gs, "gs://b/k", none⟩).1.completed = [] := rfl

/-- Evaluation of _do_copy on a fully successful run: the copy function
produced tags, the destination is cloud, verification passes, and the
destination object exists for tagging. -/
theorem doCopy_ok (st : CCState)
    (f : World → World × Except PyErr (Option (List (String × String))))
    (src dst : BlobRef) (w1 : World) (tags : List (String × String))
    (hf : f st.world = (w1, .ok (some tags)))
    (hne : ¬tags = [])
    (hloc : ¬dst.kind = .loc)
    (hver : verifyChecksums dst tags st.ignoreMissingChecksums w1 = .ok ())
    (o1 : ObjRec) (hfind : w1.find dst.url = some o1) :
    doCopy st f src dst
      = ⟨w1.put dst.url ⟨o1.data, tags, o1.native⟩,
         st.completed ++ [(src, dst, none)], st.ignoreMissingChecksums⟩ := by
  have hput : blobPutTags w1 dst tags = .ok (w1.put dst.url ⟨o1.data, tags, o1.native⟩) := by
    simp [blobPutTags, hfind]
  simp only [doCopy, hf, if_neg hloc, if_neg hne, hver, hput]

/-- The in-order part stream of a byte string is already sorted. -/
theorem partsOfData_sorted (data : Bytes) :
    (partsOfData data).insertionSort numLex = partsOfData data := by
  rw [partsOfData_eq_enum]
  exact insertionSort_eq_self_of_sorted _ (enum_sorted _)

/-- The payloads of the in-order part stream are the data chunks. -/
theorem partsOfData_map_snd (data : Bytes) :
    (partsOfData data).map Prod.snd = dataChunks data := by
  rw [partsOfData_eq_enum, List.enum_map_snd]

/-- Writing the part stream of a byte string multipart materialises the byte
string with the store's multipart checksum over its chunks. -/
theorem blobMultipartWrite_parts (w : World) (b : BlobRef) (data : Bytes) :
    blobMultipartWrite w b (partsOfData data)
      = w.put b.url ⟨data, [], multipartNative b.kind (dataChunks data)⟩ := by
  simp only [blobMultipartWrite, partsOfData_sorted, partsOfData_map_snd, flatten_dataChunks]

/-- C1: after copy_compute_checksums(src, dst) completes successfully for a
source blob and a cloud destination blob, the destination's SSDS_MD5 tag is
the hex MD5 of the source bytes when the size fits one chunk and the S3
composite etag over the destination chunk boundaries otherwise, and its
SSDS_CRC32C tag is the GCS base64 CRC32C of the whole source bytes in both
cases. -/
theorem claim_C1 (st : CCState) (src dst : BlobRef) (o : ObjRec)
    (hsrc : st.world.find src.url = some o)
    (hcloud : ¬dst.kind = .loc)
    (hsucc : (ccCopyComputeChecksums st src dst).1.completed
        = st.completed ++ [(src, dst, none)]) :
    ∃ o', (ccCopyComputeChecksums st src dst).1.world.find dst.url = some o'
      ∧ tagLookup o'.tags SSDS_MD5
          = some (if o.data.length ≤ get_s3_multipart_chunk_size o.data.length
                  then md5Hex o.data
                  else compute_composite_etag ((dataChunks o.data).map md5Hex))
      ∧ tagLookup o'.tags SSDS_CRC32C = some (gcsCrc32cB64 o.data) := by
  clear hsucc
  have hsz : blobSize st.world src = .ok o.data.length := by
    simp [blobSize, hsrc]
  by_cases hsize : o.data.length ≤ get_s3_multipart_chunk_size o.data.length
  · -- oneshot passthrough
    have hcp : copyOneshotPassthrough src dst true st.world
        = (blobPut st.world dst o.data,
           .ok (some [(SSDS_MD5, md5Hex o.data), (SSDS_CRC32C, gcsCrc32cB64 o.data)])) := by
      simp [copyOneshotPassthrough, blobGet, hsrc]
    have hfind1 : (blobPut st.world dst o.data).find dst.url
        = some ⟨o.data, [], oneshotNative dst.kind o.data⟩ :=
      World.find_put_self _ _ _
    have hver : verifyChecksums dst
        [(SSDS_MD5, md5Hex o.data), (SSDS_CRC32C, gcsCrc32cB64 o.data)]
        st.ignoreMissingChecksums (blobPut st.world dst o.data) = .ok () := by
      rcases hdk : dst.kind with _ | _ | _
      · rw [hdk] at hfind1
        simp [verifyChecksums, hdk, tagLookup, SSDS_MD5, SSDS_CRC32C,
              cloudNativeChecksum, hfind1, oneshotNative]
      · rw [hdk] at hfind1
        simp [verifyChecksums, hdk, tagLookup, SSDS_MD5, SSDS_CRC32C,
              cloudNativeChecksum, hfind1, oneshotNative]
      · exact absurd hdk hcloud
    have hdo := doCopy_ok st (copyOneshotPassthrough src dst true) src dst
      (blobPut st.world dst o.data)
      [(SSDS_MD5, md5Hex o.data), (SSDS_CRC32C, gcsCrc32cB64 o.data)]
      hcp (by simp) hcloud hver ⟨o.data, [], oneshotNative dst.kind o.data⟩ hfind1
    simp only [ccCopyComputeChecksums, hsz, if_pos hsize, hdo]
    refine ⟨_, World.find_put_self _ _ _, ?_, ?_⟩
    · simp [tagLookup, SSDS_MD5, SSDS_CRC32C]
    · simp [tagLookup, SSDS_MD5, SSDS_CRC32C]
  · -- multipart passthrough
    have hparts : blobParts st.world src = .ok (partsOfData o.data) := by
      simp [blobParts, hsrc]
    have hs3tag : (s3Feed (partsOfData o.data)).hexdigest
        = compute_composite_etag ((dataChunks o.data).map md5Hex) := by
      rw [partsOfData_eq_enum]
      exact s3Feed_hexdigest_of_perm_enum _ _ (List.Perm.refl _)
    have hgstag : (gsFeed (partsOfData o.data)).hexdigest = gcsCrc32cB64 o.data := by
      rw [partsOfData_eq_enum,
          gsFeed_hexdigest_of_perm_enum (dataChunks o.data) _ (List.Perm.refl _),
          flatten_dataChunks]
    have hcp : copyMultipartPassthrough src dst true st.world
        = (st.world.put dst.url ⟨o.data, [], multipartNative dst.kind (dataChunks o.data)⟩,
           .ok (some [(SSDS_MD5, compute_composite_etag ((dataChunks o.data).map md5Hex)),
                      (SSDS_CRC32C, gcsCrc32cB64 o.data)])) := by
      simp only [copyMultipartPassthrough, hparts, blobMultipartWrite_parts, hs3tag, hgstag,
                 if_true]
    have hfind1 : (st.world.put dst.url
          ⟨o.data, [], multipartNative dst.kind (dataChunks o.data)⟩).find dst.url
        = some ⟨o.data, [], multipartNative dst.kind (dataChunks o.data)⟩ :=
      World.find_put_self _ _ _
    have hver : verifyChecksums dst
        [(SSDS_MD5, compute_composite_etag ((dataChunks o.data).map md5Hex)),
         (SSDS_CRC32C, gcsCrc32cB64 o.data)]
        st.ignoreMissingChecksums
        (st.world.put dst.url ⟨o.data, [], multipartNative dst.kind (dataChunks o.data)⟩)
        = .ok () := by
      rcases hdk : dst.kind with _ | _ | _
      · simp only [hdk, multipartNative] at hfind1
        simp [verifyChecksums, hdk, tagLookup, SSDS_MD5, SSDS_CRC32C,
              cloudNativeChecksum, hfind1, multipartNative]
      · simp only [hdk, multipartNative, flatten_dataChunks] at hfind1
        simp [verifyChecksums, hdk, tagLookup, SSDS_MD5, SSDS_CRC32C,
              cloudNativeChecksum, hfind1, multipartNative, flatten_dataChunks]
      · exact absurd hdk hcloud
    have hdo := doCopy_ok st (copyMultipartPassthrough src dst true) src dst
      (st.world.put dst.url ⟨o.data, [], multipartNative dst.kind (dataChunks o.data)⟩)
      [(SSDS_MD5, compute_composite_etag ((dataChunks o.data).map md5Hex)),
       (SSDS_CRC32C, gcsCrc32cB64 o.data)]
      hcp (by simp) hcloud hver
      ⟨o.data, [], multipartNative dst.kind (dataChunks o.data)⟩ hfind1
    simp only [ccCopyComputeChecksums, hsz, if_neg hsize, hdo]
    refine ⟨_, World.find_put_self _ _ _, ?_, ?_⟩
    · simp [tagLookup, SSDS_MD5, SSDS_CRC32C]
    · simp [tagLookup, SSDS_MD5, SSDS_CRC32C]

set_option maxRecDepth 100000 in
/-- Witness for C1: a three-byte local source copied into a GCS blob. -/
theorem claim_C1_witness :
    ∃ o', (ccCopyComputeChecksums ⟨[("f", ⟨[1, 2, 3], [], ""⟩)], [], false⟩
          ⟨.loc, "f", none⟩ ⟨.gs, "gs://b/k", none⟩).1.world.find "gs://b/k" = some o'
      ∧ tagLookup o'.tags SSDS_MD5
          = some (if ([1, 2, 3] : Bytes).length
                    ≤ get_s3_multipart_chunk_size ([1, 2, 3] : Bytes).length
                  then md5Hex [1, 2, 3]
                  else compute_composite_etag ((dataChunks [1, 2, 3]).map md5Hex))
      ∧ tagLookup o'.tags SSDS_CRC32C = some (gcsCrc32cB64 [1, 2, 3]) :=
  claim_C1 ⟨[("f", ⟨[1, 2, 3], [], ""⟩)], [], false⟩ ⟨.loc, "f", none⟩
    ⟨.gs, "gs://b/k", none⟩ ⟨[1, 2, 3], [], ""⟩ rfl (by decide) (by decide)

/-! ## Python string primitives used by the submission service -/

/-- Python s.startswith(pre), computed on the underlying character lists. -/
def strStartsWith (s pre : String) : Bool :=
  pre.data.isPrefixOf s.data

/-- Python str.strip(chars): remove leading and trailing characters drawn
from the given character SET (not the literal string). -/
def pyStripChars (s cs : String) : String :=
  String.mk ((((s.data.dropWhile (fun c => cs.data.contains c)).reverse.dropWhile
      (fun c => cs.data.contains c)).reverse))

/-- Split at the first occurrence of a non-empty separator; none when the
separator does not occur (Python s.split(sep, 1) yielding one piece, which
makes a two-target unpacking raise ValueError). -/
def splitOnceAux (pat : List Char) : List Char → Option (List Char × List Char)
  | [] => none
  | c :: rest =>
      if pat.isPrefixOf (c :: rest) then some ([], (c :: rest).drop pat.length)
      else (splitOnceAux pat rest).map fun p => (c :: p.1, p.2)

/-- splitOnce on strings. -/
def splitOnce (s sep : String) : Option (String × String) :=
  if sep.data.isPrefixOf s.data then some ("", String.mk (s.data.drop sep.length))
  else (splitOnceAux sep.data s.data).map fun p => (String.mk p.1, String.mk p.2)

/-- Python `sub in s` for non-empty sub. -/
def pySubstr (sub s : String) : Bool :=
  sub.data.isPrefixOf s.data || (splitOnceAux sub.data s.data).isSome

/-- Python s.replace(pat, repl, 1): replace the first occurrence only; an
empty pattern inserts the replacement at the front. -/
def replaceFirst (s pat repl : String) : String :=
  if pat = "" then repl ++ s
  else
    match splitOnceAux pat.data s.data with
    | some p => String.mk p.1 ++ repl ++ String.mk p.2
    | none => s

/-! ## ssds: the submission service (SSDS class, upload / list / sync) -/

/-- Maximum length for S3 and GS object names. -/
def MAX_KEY_LENGTH : Nat := 1024

/-- SSDS.prefix. -/
def ssdsPfx : String := "submissions"

/-- SSDS._name_delimeter. -/
def nameDelimeter : String := "--"

/-- An SSDS deployment's store: the adapter kind of its bucket and the
bucket's objects keyed by blobstore key. -/
structure SSDSStore where
  kind : BlobKind
  blobs : World
deriving Repr, DecidableEq

/-- blobstore.list(prefix): the objects whose keys carry the prefix, in
stored (listing) order. -/
def ssdsListing (st : SSDSStore) (pfx : String) : List (String × ObjRec) :=
  st.blobs.filter fun kv => strStartsWith kv.1 pfx

/-- SSDS.get_submission_name: parse the name out of the first listed key of
the submission. The code strips the CHARACTER SET "submissions/" (a Python
str.strip misuse) and two-target unpackings of one-piece splits raise
ValueError. -/
def getSubmissionNameM (st : SSDSStore) (submission_id : String) :
    Except PyErr (Option String) :=
  match ssdsListing st (ssdsPfx ++ "/" ++ submission_id) with
  | [] => .ok none
  | (key, _) :: _ =>
      let ssds_key := pyStripChars key (ssdsPfx ++ "/")
      match splitOnce ssds_key nameDelimeter with
      | none => .error .valueError
      | some (_, parts) =>
          match splitOnce parts "/" with
          | none => .error .valueError
          | some (name, _) => .ok (some name)

/-- SSDS.list: the blobstore listing yields Blob objects (the Blob record is
modelled from the spec since its defining module is absent from the
snapshot), but the code calls key.strip(...) on each of them as if they were
strings, so the first listed item raises AttributeError; an empty listing
yields nothing. -/
def ssdsListM (st : SSDSStore) : Except PyErr (List (String × String)) :=
  match ssdsListing st ssdsPfx with
  | [] => .ok []
  | _ :: _ => .error .attributeError

/-- SSDS._check_name_exists: infer or validate the submission name
(Python truthiness on both the argument and the stored name). -/
def checkNameExists (st : SSDSStore) (submission_id : String) (name : Option String) :
    Except PyErr String :=
  match getSubmissionNameM st submission_id with
  | .error e => .error e
  | .ok existing =>
      if pyTruthyOptStr name = false then
        if pyTruthyOptStr existing = false then .error .valueError
        else .ok (existing.getD "")
      else if pyTruthyOptStr existing = true ∧ existing.getD "" ≠ name.getD "" then
        .error .valueError
      else .ok (name.getD "")

/-- SSDS._compose_ssds_key: strip slashes off the path, build
<id>--<name>/<path>, and enforce the key-length ceiling against
prefix + ssds_key — composed WITHOUT the "/" separator the real blobstore
key carries. -/
def composeSsdsKey (submission_id submission_name path : String) :
    Except PyErr String :=
  let path' := pyStripChars path "/"
  let dst_pfx := submission_id ++ nameDelimeter ++ submission_name
  let ssds_key := dst_pfx ++ "/" ++ path'
  let blobstore_key := ssdsPfx ++ ssds_key
  if MAX_KEY_LENGTH ≤ blobstore_key.length then .error .valueError
  else .ok ssds_key

/-- SSDS._upload_oneshot: read the bytes, write them under
submissions/<ssds_key>, and tag with the standard MD5 / CRC32C pair. -/
def uploadOneshotM (st : SSDSStore) (data : Bytes) (ssds_key : String) :
    SSDSStore × String :=
  let dst_key := ssdsPfx ++ "/" ++ ssds_key
  (⟨st.kind, st.blobs.put dst_key
      ⟨data, [(SSDS_MD5, md5Hex data), (SSDS_CRC32C, gcsCrc32cB64 data)],
       oneshotNative st.kind data⟩⟩, ssds_key)

/-- SSDS._upload_multipart for a local source: stream the parts through the
unordered checksums into the multipart writer, assert the store-native
checksum matches, then tag. The store is returned alongside the outcome so a
failed assertion leaves the written object observable. -/
def uploadMultipartM (st : SSDSStore) (data : Bytes) (ssds_key : String) :
    SSDSStore × Except PyErr String :=
  let key := ssdsPfx ++ "/" ++ ssds_key
  let parts := partsOfData data
  let s3cs := (s3Feed parts).hexdigest
  let gscs := (gsFeed parts).hexdigest
  let st1 : SSDSStore := ⟨st.kind, blobMultipartWrite st.blobs ⟨st.kind, key, none⟩ parts⟩
  match World.find st1.blobs key with
  | none => (st1, .error .blobNotFound)
  | some o =>
      if st.kind = .s3 ∧ s3cs ≠ o.native then (st1, .error .assertionError)
      else if st.kind = .gs ∧ gscs ≠ o.native then (st1, .error .assertionError)
      else
        (⟨st.kind, st1.blobs.put key
            ⟨o.data, [(SSDS_MD5, s3cs), (SSDS_CRC32C, gscs)], o.native⟩⟩,
         .ok ssds_key)

/-- The destination key _upload_tree derives for a listed source key:
replace the first occurrence of the stripped source prefix with the stripped
subdir. -/
def uploadDstKey (pfx : String) (subdir : Option String) (key : String) : String :=
  replaceFirst key (pyStripChars pfx "/")
    (match subdir with | some sd => pyStripChars sd "/" | none => "")

/-- The loop of SSDS._upload_tree over the source listing, with the
concurrency fabric embedded sequentially (each oneshot upload runs at put()
and its key is yielded by the consume_finished drain of the same
iteration). -/
def uploadTreeGo (subdir : Option String) (pfx submission_id name : String) :
    SSDSStore → List (String × Bytes) → List String →
    SSDSStore × List String × Option PyErr
  | st, [], acc => (st, acc, none)
  | st, (key, data) :: rest, acc =>
      let dst_key := uploadDstKey pfx subdir key
      match composeSsdsKey submission_id name dst_key with
      | .error e => (st, acc, some e)
      | .ok ssds_key =>
          let part_size := get_s3_multipart_chunk_size data.length
          if part_size ≥ data.length then
            let r := uploadOneshotM st data ssds_key
            uploadTreeGo subdir pfx submission_id name r.1 rest (acc ++ [r.2])
          else
            match uploadMultipartM st data ssds_key with
            | (st1, .error e) => (st1, acc, some e)
            | (st1, .ok k) =>
                uploadTreeGo subdir pfx submission_id name st1 rest (acc ++ [k])

/-- SSDS._upload_tree: assert the naming rules (plain Python asserts), then
upload each listed object under its composed key. -/
def uploadTreeM (st : SSDSStore) (listing : List (String × Bytes)) (pfx : String)
    (submission_id name : String) (subdir : Option String) :
    SSDSStore × List String × Option PyErr :=
  if pySubstr " " name then (st, [], some .assertionError)
  else if pySubstr nameDelimeter name then (st, [], some .assertionError)
  else uploadTreeGo subdir pfx submission_id name st listing []

/-- SSDS.upload: validate or infer the name, then upload the tree. The
third component is the exception the generator raises, none on success. -/
def uploadM (st : SSDSStore) (listing : List (String × Bytes)) (pfx : String)
    (submission_id : String) (name : Option String) (subdir : Option String) :
    SSDSStore × List String × Option PyErr :=
  match checkNameExists st submission_id name with
  | .error e => (st, [], some e)
  | .ok name' => uploadTreeM st listing pfx submission_id name' subdir

/-- C8: SSDS.list crashes on any non-empty listing. The blobstore listing
yields Blob objects but the code calls key.strip(...) on them, so the first
listed key — here a perfectly well-formed submissions/<id>--<name>/<rest>
key — raises AttributeError instead of yielding the (id, name) pair the
claim describes. -/
theorem claim_C8 :
    ssdsListM ⟨.s3, [("submissions/x--y/z", ⟨[1], [], ""⟩)]⟩ = .error .attributeError
    ∧ ssdsListM ⟨.s3, []⟩ = .ok [] := by
  decide

/-- C4 (amended): upload fails before transferring anything (1) with
ValueError when no name is supplied and none exists, (2) with ValueError
when the supplied name differs from a (non-empty) existing name, and
(3) with AssertionError — not ValueError — when the supplied name contains a
space or the literal "--" (the naming rules are plain asserts in
_upload_tree). -/
theorem claim_C4 (st : SSDSStore) (listing : List (String × Bytes)) (pfx : String)
    (id : String) (subdir : Option String) :
    (ssdsListing st (ssdsPfx ++ "/" ++ id) = [] →
      uploadM st listing pfx id none subdir = (st, [], some .valueError))
    ∧ (∀ n0 n1, getSubmissionNameM st id = .ok (some n0) → n0 ≠ "" → n1 ≠ "" → n0 ≠ n1 →
      uploadM st listing pfx id (some n1) subdir = (st, [], some .valueError))
    ∧ (∀ n, (pySubstr " " n = true ∨ pySubstr nameDelimeter n = true) →
      checkNameExists st id (some n) = .ok n →
      uploadM st listing pfx id (some n) subdir = (st, [], some .assertionError)) := by
  refine ⟨?_, ?_, ?_⟩
  · intro hempty
    simp [uploadM, checkNameExists, getSubmissionNameM, hempty, pyTruthyOptStr]
  · intro n0 n1 hgot hn0 hn1 hne
    simp [uploadM, checkNameExists, hgot, pyTruthyOptStr, hn0, hn1, hne]
  · intro n hsub hchk
    by_cases hsp : pySubstr " " n = true
    · simp [uploadM, hchk, uploadTreeM, hsp]
    · rcases hsub with hsub | hsub
      · exact absurd hsub hsp
      · simp [uploadM, hchk, uploadTreeM, hsp, hsub]

/-- Witness for C4: the three failure modes at concrete stores. -/
theorem claim_C4_witness :
    uploadM ⟨.s3, []⟩ [] "p" "X" none none = (⟨.s3, []⟩, [], some .valueError)
    ∧ uploadM ⟨.s3, [("submissions/X--old/f", ⟨[1], [], ""⟩)]⟩ [] "p" "X"
        (some "new") none
        = (⟨.s3, [("submissions/X--old/f", ⟨[1], [], ""⟩)]⟩, [], some .valueError)
    ∧ uploadM ⟨.s3, []⟩ [] "p" "X" (some "a b") none
        = (⟨.s3, []⟩, [], some .assertionError) :=
  ⟨(claim_C4 ⟨.s3, []⟩ [] "p" "X" none).1 (by decide),
   (claim_C4 ⟨.s3, [("submissions/X--old/f", ⟨[1], [], ""⟩)]⟩ [] "p" "X" none).2.1
     "old" "new" (by decide) (by decide) (by decide) (by decide),
   (claim_C4 ⟨.s3, []⟩ [] "p" "X" none).2.2 "a b" (Or.inl (by decide)) (by decide)⟩

/-- Counterexample to C4 as stated: a name containing a space makes upload
raise AssertionError, not the ValueError the claim requires. -/
theorem claim_C4_counterexample :
    (uploadM ⟨.s3, []⟩ [] "p" "X" (some "a b") none).2.2 = some .assertionError
    ∧ (uploadM ⟨.s3, []⟩ [] "p" "X" (some "a b") none).2.2 ≠ some .valueError := by
  decide

/-- The S3 digest of an in-order part feed is the composite etag of the
chunks. -/
theorem s3Feed_partsOfData (data : Bytes) :
    (s3Feed (partsOfData data)).hexdigest
      = compute_composite_etag ((dataChunks data).map md5Hex) := by
  rw [partsOfData_eq_enum]
  exact s3Feed_hexdigest_of_perm_enum _ _ (List.Perm.refl _)

/-- The GCS digest of an in-order part feed is the CRC32C of the data. -/
theorem gsFeed_partsOfData (data : Bytes) :
    (gsFeed (partsOfData data)).hexdigest = gcsCrc32cB64 data := by
  rw [partsOfData_eq_enum,
      gsFeed_hexdigest_of_perm_enum (dataChunks data) _ (List.Perm.refl _),
      flatten_dataChunks]

/-- _upload_multipart always succeeds: its closing asserts compare the
unordered digests with the store-native checksum of the object just written,
and those agree by construction. -/
theorem uploadMultipartM_snd (st : SSDSStore) (data : Bytes) (ssds_key : String) :
    (uploadMultipartM st data ssds_key).2 = .ok ssds_key := by
  have hfind : (blobMultipartWrite st.blobs ⟨st.kind, ssdsPfx ++ "/" ++ ssds_key, none⟩
        (partsOfData data)).find (ssdsPfx ++ "/" ++ ssds_key)
      = some ⟨data, [], multipartNative st.kind (dataChunks data)⟩ := by
    rw [blobMultipartWrite_parts]
    exact World.find_put_self _ _ _
  simp only [uploadMultipartM, hfind]
  rcases hk : st.kind with _ | _ | _ <;>
    simp [multipartNative, s3Feed_partsOfData, gsFeed_partsOfData, flatten_dataChunks]

/-- Processing a listing whose first overlong-key item sits after l₁: the
items of l₁ are uploaded, then the ValueError from composing the offending
key stops the generator. -/
theorem uploadTreeGo_append (subdir : Option String) (pfx id name : String)
    (item : String × Bytes) (l₂ : List (String × Bytes))
    (hbad : composeSsdsKey id name (uploadDstKey pfx subdir item.1) = .error .valueError) :
    ∀ (l₁ : List (String × Bytes)) (st : SSDSStore) (acc : List String),
      (∀ p ∈ l₁, ∃ k, composeSsdsKey id name (uploadDstKey pfx subdir p.1) = .ok k) →
      uploadTreeGo subdir pfx id name st (l₁ ++ item :: l₂) acc
        = ((uploadTreeGo subdir pfx id name st l₁ acc).1,
           (uploadTreeGo subdir pfx id name st l₁ acc).2.1, some .valueError) := by
  intro l₁
  induction l₁ with
  | nil =>
      intro st acc _
      rcases item with ⟨ikey, idata⟩
      simp only [List.nil_append, uploadTreeGo, hbad]
  | cons hd tl ih =>
      intro st acc hok
      obtain ⟨k, hk⟩ := hok hd (by simp)
      rcases hd with ⟨key, data⟩
      simp only [List.cons_append, uploadTreeGo, hk]
      by_cases hps : get_s3_multipart_chunk_size data.length ≥ data.length
      · rw [if_pos hps, if_pos hps]
        exact ih _ _ fun p hp => hok p (by simp [hp])
      · rw [if_neg hps, if_neg hps]
        have hst' : uploadMultipartM st data k = ((uploadMultipartM st data k).1, .ok k) :=
          Prod.ext rfl (uploadMultipartM_snd st data k)
        rw [hst']
        exact ih _ _ fun p hp => hok p (by simp [hp])

/-- C3 (amended): _compose_ssds_key raises ValueError exactly when the real
destination key "submissions/<id>--<name>/<relpath>" reaches 1025 characters
(the code checks the prefix and key concatenated WITHOUT the "/" separator
against 1024); and upload raises at the first listing item whose composed
key is overlong, after the earlier items have already been uploaded and
before the offending item's bytes move. -/
theorem claim_C3 :
    (∀ id name path : String,
      (composeSsdsKey id name path = .error .valueError ↔
        MAX_KEY_LENGTH + 1 ≤
          ("submissions/" ++ id ++ nameDelimeter ++ name ++ "/"
            ++ pyStripChars path "/").length))
    ∧ (∀ (st : SSDSStore) (l₁ : List (String × Bytes)) (item : String × Bytes)
        (l₂ : List (String × Bytes)) (pfx : String) (id : String)
        (nameArg : Option String) (subdir : Option String) (name : String),
        checkNameExists st id nameArg = .ok name →
        pySubstr " " name = false →
        pySubstr nameDelimeter name = false →
        (∀ p ∈ l₁, ∃ k, composeSsdsKey id name (uploadDstKey pfx subdir p.1) = .ok k) →
        composeSsdsKey id name (uploadDstKey pfx subdir item.1) = .error .valueError →
        uploadM st (l₁ ++ item :: l₂) pfx id nameArg subdir
          = ((uploadM st l₁ pfx id nameArg subdir).1,
             (uploadM st l₁ pfx id nameArg subdir).2.1, some .valueError)) := by
  constructor
  · intro id name path
    have h11 : (ssdsPfx : String).length = 11 := by decide
    have h12 : ("submissions/" : String).length = 12 := by decide
    have h2 : (nameDelimeter : String).length = 2 := by decide
    have h1 : ("/" : String).length = 1 := by decide
    simp only [composeSsdsKey, MAX_KEY_LENGTH]
    split_ifs with h
    · simp only [String.length_append, h11, h2, h1] at h
      constructor
      · intro _
        simp only [String.length_append, h12, h2, h1]
        omega
      · intro _
        rfl
    · simp only [String.length_append, h11, h2, h1] at h
      constructor
      · intro hcon
        exact absurd hcon (by simp)
      · intro hcon
        simp only [String.length_append, h12, h2, h1] at hcon
        omega
  · intro st l₁ item l₂ pfx id nameArg subdir name hchk hsp hdl hok hbad
    simp only [uploadM, hchk, uploadTreeM, hsp, hdl, Bool.false_eq_true, if_false]
    exact uploadTreeGo_append subdir pfx id name item l₂ hbad l₁ st [] hok

set_option maxRecDepth 1000000 in
/-- Witness for C3: a single overlong item stops an upload with ValueError
before any bytes move. -/
theorem claim_C3_witness :
    uploadM ⟨.s3, []⟩ [("p/" ++ String.mk (List.replicate 1013 'x'), [7])] "p" "A"
        (some "B") none
      = ((uploadM ⟨.s3, []⟩ [] "p" "A" (some "B") none).1,
         (uploadM ⟨.s3, []⟩ [] "p" "A" (some "B") none).2.1, some .valueError) :=
  claim_C3.2 ⟨.s3, []⟩ [] ("p/" ++ String.mk (List.replicate 1013 'x'), [7]) [] "p" "A"
    (some "B") none "B" (by decide) (by decide) (by decide) (by simp) (by decide)

set_option maxRecDepth 1000000 in
/-- Counterexample to C3 as stated: a destination key of length exactly 1024
does not raise — the object is uploaded (the code's length check omits the
"/" separator, so it fires only at 1025). -/
theorem claim_C3_counterexample :
    ("submissions/" ++ "A" ++ "--" ++ "B" ++ "/"
        ++ String.mk (List.replicate 1007 'x')).length = 1024
    ∧ (uploadM ⟨.s3, []⟩ [("p/" ++ String.mk (List.replicate 1007 'x'), [7])] "p" "A"
        (some "B") none).2.2 = none
    ∧ (uploadM ⟨.s3, []⟩ [("p/" ++ String.mk (List.replicate 1007 'x'), [7])] "p" "A"
        (some "B") none).2.1
      = ["A--B/" ++ String.mk (List.replicate 1007 'x')] := by
  decide

/-! ## ssds.sync -/

/-- Python dict equality on tag maps (same key set, same values). -/
def dictEqB (a b : List (String × String)) : Bool :=
  (a.all fun p => tagLookup b p.1 == some p.2) && (b.all fun p => tagLookup a p.1 == some p.2)

/-- sync._already_synced: false when the destination is absent, else whether
the destination tags equal the source tags. -/
def alreadySynced (src dst : SSDSStore) (key : String) : Except PyErr Bool :=
  match World.find dst.blobs key with
  | none => .ok false
  | some dobj =>
      match World.find src.blobs key with
      | none => .error .blobNotFound
      | some sobj => .ok (dictEqB sobj.tags dobj.tags)

/-- sync._verify_and_tag: assert the source's reserved checksum tag for the
destination platform equals the destination's native checksum, then copy the
source tags over. -/
def verifyAndTag (src dst : SSDSStore) (key : String) : Except PyErr SSDSStore :=
  match World.find src.blobs key with
  | none => .error .blobNotFound
  | some sobj =>
      match World.find dst.blobs key with
      | none => .error .blobNotFound
      | some dobj =>
          match dst.kind with
          | .gs =>
              match tagLookup sobj.tags SSDS_CRC32C with
              | none => .error .keyError
              | some v =>
                  if v ≠ dobj.native then .error .assertionError
                  else .ok ⟨dst.kind, dst.blobs.put key ⟨dobj.data, sobj.tags, dobj.native⟩⟩
          | .s3 =>
              match tagLookup sobj.tags SSDS_MD5 with
              | none => .error .keyError
              | some v =>
                  if v ≠ dobj.native then .error .assertionError
                  else .ok ⟨dst.kind, dst.blobs.put key ⟨dobj.data, sobj.tags, dobj.native⟩⟩
          | .loc => .error .runtimeError

/-- sync._sync_oneshot: skip when already synced, else put the bytes and
verify-and-tag. -/
def syncOneshot (src dst : SSDSStore) (key : String) (data : Bytes) :
    Except PyErr (Option String × SSDSStore) :=
  match alreadySynced src dst key with
  | .error e => .error e
  | .ok true => .ok (none, dst)
  | .ok false =>
      let dst1 : SSDSStore :=
        ⟨dst.kind, dst.blobs.put key ⟨data, [], oneshotNative dst.kind data⟩⟩
      match verifyAndTag src dst1 key with
      | .error e => .error e
      | .ok dst2 => .ok (some key, dst2)

/-- The sync loop over the source listing (sequential embedding of the
fabric: an enqueued oneshot runs at put() and its raw, unfiltered result —
possibly None — is yielded by the consume_finished drain of the same
iteration; multipart transfers yield their key inline). -/
def syncGo (src : SSDSStore) : List (String × ObjRec) → SSDSStore →
    Except PyErr (List (Option String) × SSDSStore)
  | [], dst => .ok ([], dst)
  | (key, sobj) :: rest, dst =>
      let parts := partsOfData sobj.data
      if parts.length = 1 then
        match syncOneshot src dst key (parts.headD (0, [])).2 with
        | .error e => .error e
        | .ok (res, dst1) =>
            match syncGo src rest dst1 with
            | .error e => .error e
            | .ok (ys, dst2) => .ok (res :: ys, dst2)
      else
        match alreadySynced src dst key with
        | .error e => .error e
        | .ok true => syncGo src rest dst
        | .ok false =>
            let dst1 : SSDSStore :=
              ⟨dst.kind, blobMultipartWrite dst.blobs ⟨dst.kind, key, none⟩ parts⟩
            match verifyAndTag src dst1 key with
            | .error e => .error e
            | .ok dst2 =>
                match syncGo src rest dst2 with
                | .error e => .error e
                | .ok (ys, dst3) => .ok (some key :: ys, dst3)

/-- ssds.sync: copy everything under submissions/<id> from src to dst. -/
def syncM (submission_id : String) (src dst : SSDSStore) :
    Except PyErr (List (Option String) × SSDSStore) :=
  syncGo src (ssdsListing src (ssdsPfx ++ "/" ++ submission_id)) dst

/-- A key whose destination exists and carries tags equal to the source's. -/
def tagsSynced (src dst : SSDSStore) (k : String) : Prop :=
  ∃ sobj dobj, World.find src.blobs k = some sobj
    ∧ World.find dst.blobs k = some dobj
    ∧ dictEqB sobj.tags dobj.tags = true

/-- tagLookup finds a pair of a key-Nodup association list. -/
theorem tagLookup_of_mem (tags : List (String × String)) (k : String) (v : String)
    (hmem : (k, v) ∈ tags) (hnd : (tags.map Prod.fst).Nodup) :
    tagLookup tags k = some v := by
  induction tags with
  | nil => simp at hmem
  | cons hd tl ih =>
      rcases hd with ⟨k', v'⟩
      rw [List.map_cons, List.nodup_cons] at hnd
      rcases List.mem_cons.mp hmem with he | hm
      · rw [Prod.mk.injEq] at he
        simp [tagLookup, he.1.symm, he.2.symm]
      · have hk : k' ≠ k := by
          intro he
          refine hnd.1 ?_
          rw [he]
          exact List.mem_map.mpr ⟨(k, v), hm, rfl⟩
        simp [tagLookup, hk, ih hm hnd.2]

/-- dict equality is reflexive on key-Nodup tag maps. -/
theorem dictEqB_refl (tags : List (String × String))
    (hnd : (tags.map Prod.fst).Nodup) : dictEqB tags tags = true := by
  simp only [dictEqB, Bool.and_self, List.all_eq_true]
  intro p hp
  rcases p with ⟨k, v⟩
  simp [tagLookup_of_mem tags k v hp hnd]

/-- World.find recovers a member of a key-Nodup world. -/
theorem World.find_of_mem (w : World) (k : String) (v : ObjRec)
    (hmem : (k, v) ∈ w) (hnd : (w.map Prod.fst).Nodup) :
    World.find w k = some v := by
  induction w with
  | nil => simp at hmem
  | cons hd tl ih =>
      rcases hd with ⟨k', v'⟩
      rw [List.map_cons, List.nodup_cons] at hnd
      rcases List.mem_cons.mp hmem with he | hm
      · rw [Prod.mk.injEq] at he
        simp [World.find, he.1.symm, he.2.symm]
      · have hk : k' ≠ k := by
          intro he
          refine hnd.1 ?_
          rw [he]
          exact List.mem_map.mpr ⟨(k, v), hm, rfl⟩
        simp [World.find, hk, ih hm hnd.2]

/-- Decomposition of a successful _verify_and_tag. -/
theorem verifyAndTag_ok (src dst : SSDSStore) (key : String) (dst2 : SSDSStore)
    (h : verifyAndTag src dst key = .ok dst2) :
    ∃ sobj dobj, World.find src.blobs key = some sobj
      ∧ World.find dst.blobs key = some dobj
      ∧ dst2 = ⟨dst.kind, dst.blobs.put key ⟨dobj.data, sobj.tags, dobj.native⟩⟩ := by
  rcases hs : World.find src.blobs key with _ | sobj <;> simp only [verifyAndTag, hs] at h
  · exact absurd h (by simp)
  rcases hd : World.find dst.blobs key with _ | dobj <;> simp only [hd] at h
  · exact absurd h (by simp)
  refine ⟨sobj, dobj, rfl, rfl, ?_⟩
  rcases hk : dst.kind with _ | _ | _ <;> rw [hk] at h <;> simp only [] at h
  · rcases ht : tagLookup sobj.tags SSDS_MD5 with _ | v <;> simp only [ht] at h
    · exact absurd h (by simp)
    · by_cases hv : v ≠ dobj.native
      · rw [if_pos hv] at h
        exact absurd h (by simp)
      · rw [if_neg hv] at h
        exact (Except.ok.inj h).symm
  · rcases ht : tagLookup sobj.tags SSDS_CRC32C with _ | v <;> simp only [ht] at h
    · exact absurd h (by simp)
    · by_cases hv : v ≠ dobj.native
      · rw [if_pos hv] at h
        exact absurd h (by simp)
      · rw [if_neg hv] at h
        exact (Except.ok.inj h).symm
  · exact absurd h (by simp)

/-- Decomposition of a positive _already_synced answer. -/
theorem alreadySynced_true (src dst : SSDSStore) (key : String)
    (h : alreadySynced src dst key = .ok true) :
    ∃ sobj dobj, World.find src.blobs key = some sobj
      ∧ World.find dst.blobs key = some dobj
      ∧ dictEqB sobj.tags dobj.tags = true := by
  rcases hd : World.find dst.blobs key with _ | dobj <;> simp only [alreadySynced, hd] at h
  · exact absurd h (by simp)
  rcases hs : World.find src.blobs key with _ | sobj <;> simp only [hs] at h
  · exact absurd h (by simp)
  exact ⟨sobj, dobj, rfl, rfl, Except.ok.inj h⟩

/-- A successful _sync_oneshot touches only its key and leaves that key's
destination carrying the source tags (or tags already dict-equal to them). -/
theorem syncOneshot_ok (src dst : SSDSStore) (key : String) (d : Bytes)
    (res : Option String) (dst1 : SSDSStore)
    (h : syncOneshot src dst key d = .ok (res, dst1)) :
    (∀ k, k ≠ key → World.find dst1.blobs k = World.find dst.blobs k)
    ∧ ∃ sobj dobj, World.find src.blobs key = some sobj
        ∧ World.find dst1.blobs key = some dobj
        ∧ (dictEqB sobj.tags dobj.tags = true ∨ dobj.tags = sobj.tags) := by
  rcases ha : alreadySynced src dst key with e | b <;> simp only [syncOneshot, ha] at h
  · exact absurd h (by simp)
  rcases b
  · -- not already synced: write then verify-and-tag
    simp only [] at h
    rcases hv : verifyAndTag src
        ⟨dst.kind, dst.blobs.put key ⟨d, [], oneshotNative dst.kind d⟩⟩ key
      with e | dst2 <;> simp only [hv] at h
    · exact absurd h (by simp)
    obtain ⟨he1, he2⟩ := Prod.mk.injEq .. |>.mp (Except.ok.inj h)
    obtain ⟨sobj, dobj, hvs, hvd, hveq⟩ := verifyAndTag_ok _ _ _ _ hv
    subst he2
    refine ⟨?_, sobj, ⟨dobj.data, sobj.tags, dobj.native⟩, hvs, ?_, Or.inr rfl⟩
    · intro k hk
      rw [hveq]
      show ((dst.blobs.put key ⟨d, [], oneshotNative dst.kind d⟩).put key
          ⟨dobj.data, sobj.tags, dobj.native⟩).find k = dst.blobs.find k
      rw [World.find_put_ne _ _ _ _ hk, World.find_put_ne _ _ _ _ hk]
    · rw [hveq]
      exact World.find_put_self _ _ _
  · -- already synced: nothing happens
    simp only [] at h
    obtain ⟨he1, he2⟩ := Prod.mk.injEq .. |>.mp (Except.ok.inj h)
    subst he2
    obtain ⟨sobj, dobj, hs, hd, heq⟩ := alreadySynced_true src dst key ha
    exact ⟨fun k _ => rfl, sobj, dobj, hs, hd, Or.inl heq⟩

/-- The sync loop writes only at the keys of its listing. -/
theorem syncGo_frame (src : SSDSStore) : ∀ (items : List (String × ObjRec))
    (dst dst' : SSDSStore) (ys : List (Option String)),
    syncGo src items dst = .ok (ys, dst') →
    ∀ k, k ∉ items.map Prod.fst → World.find dst'.blobs k = World.find dst.blobs k := by
  intro items
  induction items with
  | nil =>
      intro dst dst' ys h k _
      obtain ⟨_, he2⟩ := Prod.mk.injEq .. |>.mp (Except.ok.inj h)
      rw [he2]
  | cons hd rest ih =>
      rcases hd with ⟨key, sobj⟩
      intro dst dst' ys h k hk
      rw [List.map_cons, List.mem_cons] at hk
      push_neg at hk
      obtain ⟨hkne, hkrest⟩ := hk
      simp only [syncGo] at h
      by_cases hp : (partsOfData sobj.data).length = 1
      · rw [if_pos hp] at h
        rcases ho : syncOneshot src dst key ((partsOfData sobj.data).headD (0, [])).2
          with e | ⟨res, dst1⟩ <;> simp only [ho] at h
        · exact absurd h (by simp)
        rcases hrec : syncGo src rest dst1 with e | ⟨ys2, dst2⟩ <;> simp only [hrec] at h
        · exact absurd h (by simp)
        obtain ⟨_, he2⟩ := Prod.mk.injEq .. |>.mp (Except.ok.inj h)
        rw [he2] at hrec
        rw [ih dst1 dst' ys2 hrec k hkrest, (syncOneshot_ok _ _ _ _ _ _ ho).1 k hkne]
      · rw [if_neg hp] at h
        rcases ha : alreadySynced src dst key with e | b <;> simp only [ha] at h
        · exact absurd h (by simp)
        rcases b
        · simp only [] at h
          rcases hv : verifyAndTag src
              ⟨dst.kind, blobMultipartWrite dst.blobs ⟨dst.kind, key, none⟩
                (partsOfData sobj.data)⟩ key
            with e | dst2 <;> simp only [hv] at h
          · exact absurd h (by simp)
          rcases hrec : syncGo src rest dst2 with e | ⟨ys3, dst3⟩ <;> simp only [hrec] at h
          · exact absurd h (by simp)
          obtain ⟨_, he2⟩ := Prod.mk.injEq .. |>.mp (Except.ok.inj h)
          rw [he2] at hrec
          rw [ih dst2 dst' ys3 hrec k hkrest]
          obtain ⟨s1, d1, _, _, hveq⟩ := verifyAndTag_ok _ _ _ _ hv
          rw [hveq]
          show ((blobMultipartWrite dst.blobs ⟨dst.kind, key, none⟩
              (partsOfData sobj.data)).put key ⟨d1.data, s1.tags, d1.native⟩).find k
            = dst.blobs.find k
          rw [World.find_put_ne _ _ _ _ hkne]
          simp only [blobMultipartWrite]
          rw [World.find_put_ne _ _ _ _ hkne]
        · simp only [] at h
          exact ih dst dst' ys h k hkrest

/-- After a successful sync run over a key-Nodup listing drawn from the
source store, every listed key is synced in the resulting destination. -/
theorem syncGo_post (src : SSDSStore) : ∀ (items : List (String × ObjRec))
    (dst dst' : SSDSStore) (ys : List (Option String)),
    syncGo src items dst = .ok (ys, dst') →
    (items.map Prod.fst).Nodup →
    (∀ p ∈ items, World.find src.blobs p.1 = some p.2) →
    (∀ p ∈ items, (((p : String × ObjRec).2).tags.map Prod.fst).Nodup) →
    ∀ p ∈ items, tagsSynced src dst' p.1 := by
  intro items
  induction items with
  | nil =>
      intro dst dst' ys _ _ _ _ p hp
      simp at hp
  | cons hd rest ih =>
      rcases hd with ⟨key, sobj⟩
      intro dst dst' ys h hnd hmem htag p hp
      rw [List.map_cons, List.nodup_cons] at hnd
      have hkey_not_rest : key ∉ rest.map Prod.fst := hnd.1
      have hsrckey : World.find src.blobs key = some sobj := hmem (key, sobj) (by simp)
      have htagkey : (sobj.tags.map Prod.fst).Nodup := htag (key, sobj) (by simp)
      simp only [syncGo] at h
      by_cases hpl : (partsOfData sobj.data).length = 1
      · rw [if_pos hpl] at h
        rcases ho : syncOneshot src dst key ((partsOfData sobj.data).headD (0, [])).2
          with e | ⟨res, dst1⟩ <;> simp only [ho] at h
        · exact absurd h (by simp)
        rcases hrec : syncGo src rest dst1 with e | ⟨ys2, dst2⟩ <;> simp only [hrec] at h
        · exact absurd h (by simp)
        obtain ⟨_, he2⟩ := Prod.mk.injEq .. |>.mp (Except.ok.inj h)
        rw [he2] at hrec
        rcases List.mem_cons.mp hp with he | hm
        · -- the processed key itself
          subst he
          obtain ⟨_, sobj', dobj, hs', hd1, hdisj⟩ := syncOneshot_ok _ _ _ _ _ _ ho
          rw [hsrckey] at hs'
          obtain rfl := Option.some.inj hs'
          have hfr := syncGo_frame src rest dst1 dst' ys2 hrec key hkey_not_rest
          refine ⟨sobj, dobj, hsrckey, ?_, ?_⟩
          · rw [hfr, hd1]
          · rcases hdisj with hq | hq
            · exact hq
            · rw [hq]
              exact dictEqB_refl _ htagkey
        · exact ih dst1 dst' ys2 hrec hnd.2 (fun q hq => hmem q (by simp [hq]))
            (fun q hq => htag q (by simp [hq])) p hm
      · rw [if_neg hpl] at h
        rcases ha : alreadySynced src dst key with e | b <;> simp only [ha] at h
        · exact absurd h (by simp)
        rcases b
        · simp only [] at h
          rcases hv : verifyAndTag src
              ⟨dst.kind, blobMultipartWrite dst.blobs ⟨dst.kind, key, none⟩
                (partsOfData sobj.data)⟩ key
            with e | dst2 <;> simp only [hv] at h
          · exact absurd h (by simp)
          rcases hrec : syncGo src rest dst2 with e | ⟨ys3, dst3⟩ <;> simp only [hrec] at h
          · exact absurd h (by simp)
          obtain ⟨_, he2⟩ := Prod.mk.injEq .. |>.mp (Except.ok.inj h)
          rw [he2] at hrec
          rcases List.mem_cons.mp hp with he | hm
          · subst he
            obtain ⟨sobj', dobj, hvs, _, hveq⟩ := verifyAndTag_ok _ _ _ _ hv
            rw [hsrckey] at hvs
            obtain rfl := Option.some.inj hvs
            have hfr := syncGo_frame src rest dst2 dst' ys3 hrec key hkey_not_rest
            have hat : World.find dst2.blobs key
                = some ⟨dobj.data, sobj.tags, dobj.native⟩ := by
              rw [hveq]
              exact World.find_put_self _ _ _
            refine ⟨sobj, ⟨dobj.data, sobj.tags, dobj.native⟩, hsrckey, ?_, ?_⟩
            · rw [hfr, hat]
            · exact dictEqB_refl _ htagkey
          · exact ih dst2 dst' ys3 hrec hnd.2 (fun q hq => hmem q (by simp [hq]))
              (fun q hq => htag q (by simp [hq])) p hm
        · simp only [] at h
          rcases List.mem_cons.mp hp with he | hm
          · subst he
            obtain ⟨sobj', dobj, hs, hd1, heq⟩ := alreadySynced_true src dst key ha
            rw [hsrckey] at hs
            obtain rfl := Option.some.inj hs
            have hfr := syncGo_frame src rest dst dst' ys h key hkey_not_rest
            refine ⟨sobj, dobj, hsrckey, ?_, heq⟩
            rw [hfr, hd1]
          · exact ih dst dst' ys h hnd.2 (fun q hq => hmem q (by simp [hq]))
              (fun q hq => htag q (by simp [hq])) p hm

/-- Running the sync loop over already-synced keys writes nothing and yields
no keys (only the Nones of the skipped oneshot tasks). -/
theorem syncGo_synced (src : SSDSStore) : ∀ (items : List (String × ObjRec))
    (dst : SSDSStore),
    (∀ p ∈ items, tagsSynced src dst p.1) →
    ∃ ys, syncGo src items dst = .ok (ys, dst)
      ∧ ys.all (fun y => y = none) = true := by
  intro items
  induction items with
  | nil =>
      intro dst _
      exact ⟨[], rfl, rfl⟩
  | cons hd rest ih =>
      rcases hd with ⟨key, sobj⟩
      intro dst hsync
      obtain ⟨sobj', dobj, hs, hd1, heq⟩ := hsync (key, sobj) (by simp)
      have halready : alreadySynced src dst key = .ok true := by
        simp [alreadySynced, hd1, hs, heq]
      obtain ⟨ys, hrec, hall⟩ := ih dst (fun q hq => hsync q (by simp [hq]))
      by_cases hpl : (partsOfData sobj.data).length = 1
      · have hone : syncOneshot src dst key ((partsOfData sobj.data).headD (0, [])).2
            = .ok (none, dst) := by
          simp [syncOneshot, halready]
        refine ⟨none :: ys, ?_, ?_⟩
        · simp only [syncGo, if_pos hpl, hone, hrec]
        · simpa using hall
      · refine ⟨ys, ?_, hall⟩
        simp only [syncGo, if_neg hpl, halready, hrec]

/-- C5: running sync(id, A, B) to completion and then running it a second
time makes the second run write nothing to the destination — neither object
bytes nor tags — and yield no keys: every key's destination already exists
with tags equal to the source tags, so it is skipped (the skipped oneshot
tasks surface only as None results). Stores are assumed key-unique with
key-unique tag maps. -/
theorem claim_C5 (id : String) (src dst : SSDSStore) (ys₁ : List (Option String))
    (dst₁ : SSDSStore)
    (hsrcnd : (src.blobs.map Prod.fst).Nodup)
    (htagnd : ∀ p ∈ src.blobs, (((p : String × ObjRec).2).tags.map Prod.fst).Nodup)
    (h1 : syncM id src dst = .ok (ys₁, dst₁)) :
    ∃ ys₂, syncM id src dst₁ = .ok (ys₂, dst₁)
      ∧ ys₂.all (fun y => y = none) = true := by
  have hsub : ∀ p ∈ ssdsListing src (ssdsPfx ++ "/" ++ id), p ∈ src.blobs :=
    fun p hp => (List.mem_filter.mp hp).1
  have hlistnd : ((ssdsListing src (ssdsPfx ++ "/" ++ id)).map Prod.fst).Nodup :=
    hsrcnd.sublist ((List.filter_sublist _).map Prod.fst)
  have hmem : ∀ p ∈ ssdsListing src (ssdsPfx ++ "/" ++ id),
      World.find src.blobs p.1 = some p.2 :=
    fun p hp => World.find_of_mem _ _ _ (hsub p hp) hsrcnd
  have htag : ∀ p ∈ ssdsListing src (ssdsPfx ++ "/" ++ id),
      (((p : String × ObjRec).2).tags.map Prod.fst).Nodup :=
    fun p hp => htagnd p (hsub p hp)
  have hpost := syncGo_post src _ dst dst₁ ys₁ h1 hlistnd hmem htag
  exact syncGo_synced src _ dst₁ fun p hp => hpost p hp

set_option maxRecDepth 1000000 in
/-- Witness for C5: a one-object submission synced into an empty store and
then synced again. -/
theorem claim_C5_witness :
    ∃ ys₂, syncM "X"
        ⟨.s3, [("submissions/X--n/a",
          ⟨[1], [(SSDS_MD5, md5Hex [1]), (SSDS_CRC32C, gcsCrc32cB64 [1])], md5Hex [1]⟩)]⟩
        ⟨.s3, [("submissions/X--n/a",
          ⟨[1], [(SSDS_MD5, md5Hex [1]), (SSDS_CRC32C, gcsCrc32cB64 [1])], md5Hex [1]⟩)]⟩
      = .ok (ys₂,
        ⟨.s3, [("submissions/X--n/a",
          ⟨[1], [(SSDS_MD5, md5Hex [1]), (SSDS_CRC32C, gcsCrc32cB64 [1])], md5Hex [1]⟩)]⟩)
      ∧ ys₂.all (fun y => y = none) = true :=
  claim_C5 "X"
    ⟨.s3, [("submissions/X--n/a",
      ⟨[1], [(SSDS_MD5, md5Hex [1]), (SSDS_CRC32C, gcsCrc32cB64 [1])], md5Hex [1]⟩)]⟩
    ⟨.s3, []⟩ [some "submissions/X--n/a"]
    ⟨.s3, [("submissions/X--n/a",
      ⟨[1], [(SSDS_MD5, md5Hex [1]), (SSDS_CRC32C, gcsCrc32cB64 [1])], md5Hex [1]⟩)]⟩
    (by decide) (by decide) (by decide)

/-! ## release (spec-modelled) -/

/-- A release manifest record (spec section 6: Persisted artifacts). -/
structure ReleaseManifest where
  submission_id : String
  src_bucket : String
  dst_bucket : String
  aws_identity : String
  gcp_identity : String
  start_timestamp : String
  end_timestamp : String
  transfer_map : List (String × String)
deriving Repr, DecidableEq

/-- An object of a release-capable store: ordinary bytes or a stored
manifest (its JSON serialization abstracted). -/
inductive RObj where
  | blob (data : Bytes)
  | manifest (m : ReleaseManifest)
deriving Repr, DecidableEq

/-- A store holding release objects, keyed by object key. -/
abbrev RStore := List (String × RObj)

/-- Lookup in a release store. -/
def rfind : RStore → String → Option RObj
  | [], _ => none
  | (k, v) :: rest, key => if k = key then some v else rfind rest key

/-- Write into a release store, replacing any existing object. -/
def rput : RStore → String → RObj → RStore
  | [], key, o => [(key, o)]
  | (k, v) :: rest, key, o =>
      if k = key then (k, o) :: rest else (k, v) :: rput rest key o

theorem rfind_rput_self (w : RStore) (key : String) (o : RObj) :
    rfind (rput w key o) key = some o := by
  induction w with
  | nil => simp [rput, rfind]
  | cons hd tl ih =>
      rcases hd with ⟨k, v⟩
      by_cases h : k = key
      · simp [rput, rfind, h]
      · simp [rput, rfind, h, ih]

/-- Modelled from the spec: `release(submissionID, src, dst, transfers)` is a
NotImplementedError stub in src/ssds/cli/staging.py, so the operation is
modelled from spec sections 4.5 and 6: validate that every source key lies
within the submission and every destination under the release area, with no
duplicate keys on either side; perform the transfers (a transfer succeeds
iff its source object exists); record the realized transfer map; and write
the manifest into the source submission under
release-transfer-manifests/<start_timestamp> only if at least one transfer
succeeded. -/
def releaseM (submission_id name : String) (src dst : RStore)
    (transfers : List (String × String)) (src_bucket dst_bucket : String)
    (aws_id gcp_id start_ts end_ts : String) :
    Except PyErr (RStore × RStore × ReleaseManifest) :=
  let subPfx := "submissions/" ++ submission_id ++ "--" ++ name ++ "/"
  if ¬ transfers.all (fun t => strStartsWith t.1 subPfx) then .error .valueError
  else if ¬ transfers.all (fun t => strStartsWith t.2 "working/") then .error .valueError
  else if ¬ (transfers.map Prod.fst).Nodup then .error .valueError
  else if ¬ (transfers.map Prod.snd).Nodup then .error .valueError
  else
    let succeeded := transfers.filter fun t => (rfind src t.1).isSome
    let dst' := succeeded.foldl (fun d t =>
        match rfind src t.1 with
        | some o => rput d t.2 o
        | none => d) dst
    let m : ReleaseManifest :=
      ⟨submission_id, src_bucket, dst_bucket, aws_id, gcp_id, start_ts, end_ts, succeeded⟩
    let manifestKey := subPfx ++ "release-transfer-manifests/" ++ start_ts
    if succeeded.isEmpty then .ok (src, dst', m)
    else .ok (rput src manifestKey (.manifest m), dst', m)

/-- C9: after release with at least one successful transfer, a manifest
object exists in the source store at
submissions/<id>--<name>/release-transfer-manifests/<start_timestamp> whose
transfer_map is exactly the successful (src_key, dst_key) pairs; with no
successful transfer, no manifest is written and the source store is
untouched. -/
theorem claim_C9 (submission_id name : String) (src dst : RStore)
    (transfers : List (String × String)) (src_bucket dst_bucket : String)
    (aws_id gcp_id start_ts end_ts : String)
    (src' dst' : RStore) (m : ReleaseManifest)
    (h : releaseM submission_id name src dst transfers src_bucket dst_bucket
        aws_id gcp_id start_ts end_ts = .ok (src', dst', m)) :
    m.transfer_map = transfers.filter (fun t => (rfind src t.1).isSome)
    ∧ (m.transfer_map ≠ [] →
        rfind src' ("submissions/" ++ submission_id ++ "--" ++ name
          ++ "/" ++ "release-transfer-manifests/" ++ start_ts)
          = some (.manifest m))
    ∧ (m.transfer_map = [] → src' = src) := by
  simp only [releaseM] at h
  split_ifs at h with h1 h2 h3 h4 h5
  · -- no success: source untouched
    have h' := Except.ok.inj h
    have hs := congrArg Prod.fst h'
    have hm := congrArg (fun x => x.2.2) h'
    simp only at hs hm
    refine ⟨by rw [← hm], ?_, fun _ => hs.symm⟩
    intro hne
    rw [← hm] at hne
    simp only [List.isEmpty_iff] at h5
    exact absurd h5 hne
  · -- at least one success: manifest written
    have h' := Except.ok.inj h
    have hs := congrArg Prod.fst h'
    have hm := congrArg (fun x => x.2.2) h'
    simp only at hs hm
    refine ⟨by rw [← hm], ?_, ?_⟩
    · intro _
      rw [← hs, ← hm]
      exact rfind_rput_self src _ _
    · intro hempty
      rw [← hm] at hempty
      simp only [List.isEmpty_iff] at h5
      exact absurd hempty h5

set_option maxRecDepth 100000 in
/-- Witness for C9: a one-transfer release on a concrete store writes a
manifest object at the expected key whose transfer_map holds exactly the
successful pair. -/
theorem claim_C9_witness :
    rfind
      [("submissions/X--n/a", RObj.blob [1]),
       ("submissions/X--n/release-transfer-manifests/t0",
        RObj.manifest ⟨"X", "sb", "db", "aws", "gcp", "t0", "t1",
          [("submissions/X--n/a", "working/a")]⟩)]
      ("submissions/" ++ "X" ++ "--" ++ "n" ++ "/" ++ "release-transfer-manifests/" ++ "t0")
      = some (.manifest ⟨"X", "sb", "db", "aws", "gcp", "t0", "t1",
          [("submissions/X--n/a", "working/a")]⟩) :=
  (claim_C9 "X" "n" [("submissions/X--n/a", .blob [1])] []
      [("submissions/X--n/a", "working/a")] "sb" "db" "aws" "gcp" "t0" "t1"
      [("submissions/X--n/a", RObj.blob [1]),
       ("submissions/X--n/release-transfer-manifests/t0",
        RObj.manifest ⟨"X", "sb", "db", "aws", "gcp", "t0", "t1",
          [("submissions/X--n/a", "working/a")]⟩)]
      [("working/a", RObj.blob [1])]
      ⟨"X", "sb", "db", "aws", "gcp", "t0", "t1", [("submissions/X--n/a", "working/a")]⟩
      (by decide)).2.1 (by decide)
